import Mathlib

/-!
Shallow embedding of the erasure-coded write path of minio
(`erasure-createfile.go`: `erasureCreateFile`, `encodeData`, `appendFile`)
and of the POSIX path/volume validators (`isValidPath`, `isValidVolname`).

Modelling conventions:
* Go byte slices are `List Nat` (each entry a byte value).
* Go `error` values are `Option`; the error taxonomy of the write path is
  the inductive `ErasureError`.
* The SHA-512 hashers (`hash.Hash`) are modelled by the list of bytes fed
  to them so far; producing the hex digest (`hex.EncodeToString(h.Sum(nil))`)
  is abstracted into a `digest : List Nat → String` parameter, since the
  claims under study only concern *which* bytes are hashed.
* Storage endpoints (`StorageAPI`) are modelled by a script
  `appendErr : Nat → Option Nat` giving the outcome of the k-th
  `AppendFile` call on that endpoint (`none` = success, `some code` =
  the error returned).  Endpoint state (the sequence of appends attempted
  on it) is threaded explicitly as `DiskState`.
* The goroutine fan-out in `appendFile` is modelled functionally: each of
  the per-index tasks owns its slot of `wErrs` and of the disk states, so
  those are computed pointwise; the shared hash array is updated by a fold
  in index order (any interleaving gives the same result when the
  distribution is injective, which is the spec's invariant).
* The read loop of `erasureCreateFile` is given fuel; the top-level entry
  point supplies `bytes.length + 2`, which is never exhausted because every
  iteration that continues the loop consumes at least one byte.
-/

namespace MinioXL

/-- Error taxonomy of the write path (spec §7): codec faults, stream read
failure, and quorum loss.  `AppendError` stands for the arbitrary error a
storage endpoint returns from `AppendFile`. -/
inductive ErasureError where
  | GeometryUnavailable
  | CodecInit
  | Split
  | Encode
  | ReadFailure (code : Nat)
  | AppendError (code : Nat)
  | WriteQuorumLost (volume path : String)
deriving DecidableEq

/-- A checksum entry: part name, algorithm tag and (hex) digest
(`checkSumInfo` in the Go source). -/
structure checkSumInfo where
  Name : String
  Algorithm : String
  Hash : String
deriving DecidableEq

instance : Inhabited checkSumInfo := ⟨⟨"", "", ""⟩⟩

/-- Per-endpoint erasure descriptor (`erasureInfo` in the Go source).
`Distribution` entries are the Go `[]int` values (1-based shard indices). -/
structure erasureInfo where
  Algorithm : String
  DataBlocks : Nat
  ParityBlocks : Nat
  BlockSize : Nat
  Distribution : List Nat
  Checksum : List checkSumInfo
deriving DecidableEq

/-- The Go zero value of `erasureInfo` (what `make([]erasureInfo, n)` holds). -/
instance : Inhabited erasureInfo := ⟨⟨"", 0, 0, 0, [], []⟩⟩

/-- Modelled from the spec: `erasureInfo.IsValid` is not among the provided
sources.  Spec §3: "A descriptor is valid if all fields are populated and
`dist` is a permutation of `1..N`" with `N = D + P`. -/
def erasureInfo.IsValid (e : erasureInfo) : Bool :=
  e.Algorithm ≠ "" && 0 < e.DataBlocks && 0 < e.ParityBlocks && 0 < e.BlockSize &&
    decide (List.Perm e.Distribution (List.range' 1 (e.DataBlocks + e.ParityBlocks)))

/-- Modelled from the spec: `pickValidErasureInfo` is not among the provided
sources.  Spec §4.1: the output is a single descriptor and "the first valid
descriptor is chosen; order is positional".  When no descriptor is valid the
Go function's named return value keeps the zero descriptor, and the failure
surfaces later in the write (spec §4.1 error clause). -/
def pickValidErasureInfo (eInfos : List erasureInfo) : erasureInfo :=
  match eInfos.find? (fun e => e.IsValid) with
  | some e => e
  | none => default

/-- `newHashWriters(n)`: `n` fresh SHA-512 hashers, each modelled by the
(empty) list of bytes fed so far. -/
def newHashWriters (n : Nat) : List (List Nat) :=
  List.replicate n []

/-- Modelled from the spec: `isQuorum` is not among the provided sources.
Spec §4.4: "Let `F` = number of endpoints whose append returned an error.
Success iff `N - F ≥ Q`" where `N` is the length of the error vector. -/
def isQuorum (errs : List (Option Nat)) (quorum : Nat) : Bool :=
  quorum ≤ errs.length - errs.countP (fun e => e.isSome)

/-! ## Path and volume name validation (`src/unnamed/part_000`) -/

/-- Go's `unicode/utf8` continuation-byte test: `lo ≤ b ≤ hi`. -/
def contByte (lo hi b : Nat) : Bool :=
  lo ≤ b && b ≤ hi

/-- Embedding of Go's `utf8.ValidString` on the byte sequence of the string:
the standard UTF-8 acceptance automaton (rejecting overlong encodings,
surrogates and code points above U+10FFFF), as implemented by the accept
ranges of the `unicode/utf8` package. -/
def validUTF8 : List Nat → Bool
  | [] => true
  | b :: rest =>
    if b ≤ 0x7F then validUTF8 rest
    else if 0xC2 ≤ b && b ≤ 0xDF then
      match rest with
      | c1 :: rest2 => contByte 0x80 0xBF c1 && validUTF8 rest2
      | [] => false
    else if b == 0xE0 then
      match rest with
      | c1 :: c2 :: rest3 => contByte 0xA0 0xBF c1 && contByte 0x80 0xBF c2 && validUTF8 rest3
      | _ => false
    else if (0xE1 ≤ b && b ≤ 0xEC) || (0xEE ≤ b && b ≤ 0xEF) then
      match rest with
      | c1 :: c2 :: rest3 => contByte 0x80 0xBF c1 && contByte 0x80 0xBF c2 && validUTF8 rest3
      | _ => false
    else if b == 0xED then
      match rest with
      | c1 :: c2 :: rest3 => contByte 0x80 0x9F c1 && contByte 0x80 0xBF c2 && validUTF8 rest3
      | _ => false
    else if b == 0xF0 then
      match rest with
      | c1 :: c2 :: c3 :: rest4 =>
        contByte 0x90 0xBF c1 && contByte 0x80 0xBF c2 && contByte 0x80 0xBF c3 && validUTF8 rest4
      | _ => false
    else if 0xF1 ≤ b && b ≤ 0xF3 then
      match rest with
      | c1 :: c2 :: c3 :: rest4 =>
        contByte 0x80 0xBF c1 && contByte 0x80 0xBF c2 && contByte 0x80 0xBF c3 && validUTF8 rest4
      | _ => false
    else if b == 0xF4 then
      match rest with
      | c1 :: c2 :: c3 :: rest4 =>
        contByte 0x80 0x8F c1 && contByte 0x80 0xBF c2 && contByte 0x80 0xBF c3 && validUTF8 rest4
      | _ => false
    else false

/-- `pathMax` — 4k limit on all unixes. -/
def pathMax : Nat := 4096

/-- `isValidPath` verifies if a path name is in accordance with FS
limitations.  A path is a Go string, modelled as its byte sequence; `len`
is the byte length. -/
def isValidPath (path : List Nat) : Bool :=
  if path.length > pathMax || path.length == 0 then false
  else if !(validUTF8 path) then false
  else true

/-- `isValidVolname` verifies a volname in accordance with object layer
requirements.  `strings.ContainsAny(volname, "/")` holds exactly when the
byte `0x2F` occurs in the string (in UTF-8 the byte `0x2F` is only ever the
character `/`, and a raw `0x2F` byte always decodes as `/`). -/
def isValidVolname (volname : List Nat) : Bool :=
  if volname.length < 3 || volname.length > 63 then false
  else !(volname.contains 47)

/-! ## Block codec (`encodeData` and the `klauspost/reedsolomon` calls) -/

/-- Modelled from the spec: `reedsolomon.New` is library code outside this
repository.  Spec §7: `CodecInit` — invalid `D`, `P`; the library rejects a
zero data- or parity-shard count and more than 255 total shards. -/
def reedsolomonNew (dataShards parityShards : Nat) : Option ErasureError :=
  if dataShards == 0 || parityShards == 0 || dataShards + parityShards > 255 then
    some ErasureError.CodecInit
  else none

/-- Modelled from the spec: `reedsolomon.Split` is library code outside this
repository.  Spec §4.2: it splits a contiguous buffer into `D` equal data
shards of length `ceil(n / D)`, zero-padding the tail, and allocates `P`
parity shards of equal length; an empty buffer is too small for the split
invariants (`Split` error, spec §7). -/
def rsSplit (data : List Nat) (dataShards parityShards : Nat) :
    Except ErasureError (List (List Nat)) :=
  if data.length == 0 then Except.error ErasureError.Split
  else
    let perShard := (data.length + dataShards - 1) / dataShards
    let shards := dataShards + parityShards
    let padded := data ++ List.replicate (shards * perShard - data.length) 0
    Except.ok ((List.range shards).map fun i => (padded.drop (i * perShard)).take perShard)

/-- One parity byte: a column-wise combination of the data shards.  The
actual Reed–Solomon arithmetic is library code outside this repository and
no claim under study depends on parity *values*; a length-preserving
placeholder (column XOR) stands in for the field arithmetic. -/
def xorColumn (dataShards : List (List Nat)) (c : Nat) : Nat :=
  dataShards.foldl (fun acc s => Nat.xor acc (s.getD c 0)) 0

/-- Modelled from the spec: `reedsolomon.Encode` is library code outside
this repository.  It checks that the shard matrix is consistent (all `N`
shards present, equal and nonzero length) and then overwrites the `P`
parity shards with parity of the `D` data shards, preserving lengths. -/
def rsEncode (dataShards parityShards : Nat) (shards : List (List Nat)) :
    Except ErasureError (List (List Nat)) :=
  if shards.length ≠ dataShards + parityShards then Except.error ErasureError.Encode
  else
    let size := (shards.headD []).length
    if size == 0 || shards.any (fun s => s.length ≠ size) then Except.error ErasureError.Encode
    else
      let dataPart := shards.take dataShards
      Except.ok (dataPart ++ (List.range parityShards).map fun _ =>
        (List.range size).map (xorColumn dataPart))

/-- `encodeData` — encodes the incoming data buffer into
`dataBlocks + parityBlocks` blocks (Go lines 103–123): construct the codec,
split the buffer, encode parity. -/
def encodeData (dataBuffer : List Nat) (dataBlocks parityBlocks : Nat) :
    Except ErasureError (List (List Nat)) :=
  match reedsolomonNew dataBlocks parityBlocks with
  | some e => Except.error e
  | none =>
    match rsSplit dataBuffer dataBlocks parityBlocks with
    | Except.error e => Except.error e
    | Except.ok blocks => rsEncode dataBlocks parityBlocks blocks

/-! ## Storage endpoints and the fan-out writer (`appendFile`) -/

/-- A storage endpoint handle: `appendErr k` is the outcome of the k-th
`AppendFile` call on this endpoint (`none` = success). -/
structure StorageAPI where
  appendErr : Nat → Option Nat

/-- The persistent state of one endpoint: the byte payloads of the
`AppendFile` calls made on it, in order. -/
structure DiskState where
  calls : List (List Nat)
deriving DecidableEq

instance : Inhabited DiskState := ⟨⟨[]⟩⟩

/-- Whether the endpoint at index `i` is present (non-nil). -/
def diskPresent (disks : List (Option StorageAPI)) (i : Nat) : Bool :=
  (disks.getD i none).isSome

/-- The value task `i` leaves in `wErrs[i]`: `nil` when the disk is absent
(the slot is never written, Go zero value) or the append succeeded, the
endpoint's error otherwise. -/
def diskCallErr (disks : List (Option StorageAPI)) (sts : List DiskState) (i : Nat) :
    Option Nat :=
  match disks.getD i none with
  | none => none
  | some d => d.appendErr (sts.getD i default).calls.length

/-- Whether task `i` reaches the hash-update line: the disk is present and
its `AppendFile` call returned nil. -/
def appendSucceeds (disks : List (Option StorageAPI)) (sts : List DiskState) (i : Nat) :
    Bool :=
  diskPresent disks i && (diskCallErr disks sts i).isNone

/-- Result of one `appendFile` stripe: the updated hash array, the updated
endpoint states, and the aggregate verdict. -/
structure AppendFileResult where
  hashWriters : List (List Nat)
  states : List DiskState
  err : Option ErasureError

/-- `appendFile` — append one stripe to all disks (Go lines 126–162).
For each index with a present disk, a task appends
`enBlocks[distribution[index] - 1]` to that disk, records its error in its
own `wErrs` slot, and on success updates the hash at the same block index.
Absent disks are skipped, leaving their `wErrs` slot nil.  The verdict is
`isQuorum(wErrs, writeQuorum)`; on failure the stripe reports
`WriteQuorumLost(volume, path)`.  Slots of `wErrs` and of the disk states
are task-owned and computed pointwise; the shared hash array is folded in
index order. -/
def appendFile (disks : List (Option StorageAPI)) (volume path : String)
    (enBlocks : List (List Nat)) (distribution : List Nat)
    (hashWriters : List (List Nat)) (sts : List DiskState) (writeQuorum : Nat) :
    AppendFileResult :=
  let blockIndexOf := fun i => distribution.getD i 0 - 1
  let shardOf := fun i => enBlocks.getD (blockIndexOf i) []
  let wErrs := (List.range disks.length).map (diskCallErr disks sts)
  let sts' := (List.range sts.length).map fun i =>
    if diskPresent disks i then ⟨(sts.getD i default).calls ++ [shardOf i]⟩
    else sts.getD i default
  let hw' := (List.range disks.length).foldl
    (fun hw i =>
      if appendSucceeds disks sts i then
        hw.set (blockIndexOf i) (hw.getD (blockIndexOf i) [] ++ shardOf i)
      else hw)
    hashWriters
  if isQuorum wErrs writeQuorum then ⟨hw', sts', none⟩
  else ⟨hw', sts', some (ErasureError.WriteQuorumLost volume path)⟩

/-! ## The stream driver (`erasureCreateFile`) -/

/-- The input `io.Reader`: the bytes it will deliver, and the error its
`Read` returns once the bytes are exhausted (`none` = clean `io.EOF`). -/
structure ByteStream where
  bytes : List Nat
  readErr : Option Nat

/-- Outcome of `io.ReadFull(data, buf)` with `len(buf) = B`:
a full block (`err == nil`), a short final block (`io.ErrUnexpectedEOF`),
end of stream on the first byte (`io.EOF`), or any other read error. -/
inductive ReadResult where
  | full (chunk : List Nat)
  | short (chunk : List Nat)
  | eof
  | fail (code : Nat)

/-- Semantics of `io.ReadFull` on a `ByteStream`: with an empty buffer it
reads nothing and returns nil; otherwise it consumes up to `B` bytes and
reports full / short / EOF / error per the `io.ReadFull` contract. -/
def readFull (blockSize : Nat) (s : ByteStream) : ReadResult × ByteStream :=
  if blockSize == 0 then (ReadResult.full [], s)
  else if blockSize ≤ s.bytes.length then
    (ReadResult.full (s.bytes.take blockSize), ⟨s.bytes.drop blockSize, s.readErr⟩)
  else if s.bytes.length == 0 then
    match s.readErr with
    | none => (ReadResult.eof, s)
    | some c => (ReadResult.fail c, s)
  else
    match s.readErr with
    | none => (ReadResult.short s.bytes, ⟨[], none⟩)
    | some c => (ReadResult.fail c, ⟨[], some c⟩)

/-- Result of the read loop: first fatal error (if any), final hash array,
final endpoint states, and the byte count accumulated in `size`. -/
structure LoopResult where
  err : Option ErasureError
  hashWriters : List (List Nat)
  states : List DiskState
  size : Nat

/-- The `for` loop of `erasureCreateFile` (Go lines 40–74).  Each iteration
reads a block: on `io.EOF` with `size == 0` it appends one empty stripe
(`blocks := make([][]byte, len(disks))`) to materialize a zero-byte file,
otherwise it breaks; on another read error it aborts; on a full or short
block it accumulates `size`, encodes, and fans the stripe out, aborting on
an encode or quorum error.  `fuel` bounds the iteration count; the entry
point supplies more fuel than the loop can consume. -/
def erasureLoop (disks : List (Option StorageAPI)) (volume path : String)
    (eInfo : erasureInfo) (writeQuorum : Nat) :
    Nat → ByteStream → List (List Nat) → List DiskState → Nat → LoopResult
  | 0, _, hw, sts, size => ⟨some (ErasureError.ReadFailure 0), hw, sts, size⟩
  | fuel + 1, s, hw, sts, size =>
    match readFull eInfo.BlockSize s with
    | (ReadResult.eof, _) =>
      if size == 0 then
        let blocks := List.replicate disks.length ([] : List Nat)
        let r := appendFile disks volume path blocks eInfo.Distribution hw sts writeQuorum
        match r.err with
        | some e => ⟨some e, r.hashWriters, r.states, size⟩
        | none => ⟨none, r.hashWriters, r.states, size⟩
      else ⟨none, hw, sts, size⟩
    | (ReadResult.fail c, _) => ⟨some (ErasureError.ReadFailure c), hw, sts, size⟩
    | (ReadResult.full chunk, s') =>
      match encodeData chunk eInfo.DataBlocks eInfo.ParityBlocks with
      | Except.error e => ⟨some e, hw, sts, size⟩
      | Except.ok blocks =>
        let r := appendFile disks volume path blocks eInfo.Distribution hw sts writeQuorum
        match r.err with
        | some e => ⟨some e, r.hashWriters, r.states, size + chunk.length⟩
        | none =>
          erasureLoop disks volume path eInfo writeQuorum fuel s'
            r.hashWriters r.states (size + chunk.length)
    | (ReadResult.short chunk, s') =>
      match encodeData chunk eInfo.DataBlocks eInfo.ParityBlocks with
      | Except.error e => ⟨some e, hw, sts, size⟩
      | Except.ok blocks =>
        let r := appendFile disks volume path blocks eInfo.Distribution hw sts writeQuorum
        match r.err with
        | some e => ⟨some e, r.hashWriters, r.states, size + chunk.length⟩
        | none =>
          erasureLoop disks volume path eInfo writeQuorum fuel s'
            r.hashWriters r.states (size + chunk.length)

/-- The first finalizer loop (Go lines 77–85): starting from
`make([]checkSumInfo, len(disks))` (zero values), for every disk index set
`checkSums[dist[index] - 1] := { partName, "sha512", digest of the hash at
dist[index] - 1 }`.  `dist` here is the selected descriptor's distribution. -/
def buildCheckSums (numDisks : Nat) (partName : String) (distribution : List Nat)
    (hw : List (List Nat)) (digest : List Nat → String) : List checkSumInfo :=
  (List.range numDisks).foldl
    (fun cs index =>
      let blockIndex := distribution.getD index 0 - 1
      cs.set blockIndex ⟨partName, "sha512", digest (hw.getD blockIndex [])⟩)
    (List.replicate numDisks default)

/-- The second finalizer loop (Go lines 88–95): starting from
`make([]erasureInfo, len(disks))` (zero values), for every index whose input
descriptor is valid, copy it and append `checkSums[blockIndex]` to its
checksum list — where `blockIndex` is computed from **that descriptor's
own** `Distribution` (the loop variable `eInfo` shadows the selected one). -/
def updateEInfos (numDisks : Nat) (eInfos : List erasureInfo)
    (checkSums : List checkSumInfo) : List erasureInfo :=
  (List.range eInfos.length).foldl
    (fun acc index =>
      let eInfo := eInfos.getD index default
      if eInfo.IsValid then
        let blockIndex := eInfo.Distribution.getD index 0 - 1
        acc.set index
          { eInfo with Checksum := eInfo.Checksum ++ [checkSums.getD blockIndex default] }
      else acc)
    (List.replicate numDisks default)

/-- Result of `erasureCreateFile`: the Go triple
`(newEInfos []erasureInfo, size int64, err error)` (with `newEInfos = nil`
modelled as `none`), plus the final endpoint states and hash array (the
side effects on the disks and the shared hasher array). -/
structure CreateFileResult where
  newEInfos : Option (List erasureInfo)
  size : Nat
  err : Option ErasureError
  diskStates : List DiskState
  hashWriters : List (List Nat)

/-- `erasureCreateFile` — writes an entire stream by erasure coding to all
the disks and records per-block checksums (Go lines 31–99): pick one
descriptor, run the read loop, and on success build the checksums and the
updated descriptor vector; every error path returns `nil, 0, err`. -/
def erasureCreateFile (disks : List (Option StorageAPI)) (volume path partName : String)
    (data : ByteStream) (eInfos : List erasureInfo) (writeQuorum : Nat)
    (digest : List Nat → String) : CreateFileResult :=
  let eInfo := pickValidErasureInfo eInfos
  let hw := newHashWriters disks.length
  let sts := List.replicate disks.length (default : DiskState)
  let r := erasureLoop disks volume path eInfo writeQuorum
    (data.bytes.length + 2) data hw sts 0
  match r.err with
  | some e => ⟨none, 0, some e, r.states, r.hashWriters⟩
  | none =>
    let checkSums := buildCheckSums disks.length partName eInfo.Distribution
      r.hashWriters digest
    let newEInfos := updateEInfos disks.length eInfos checkSums
    ⟨some newEInfos, r.size, none, r.states, r.hashWriters⟩

/-! ## Spec-side vocabulary for the quorum claims -/

/-- The claim's failure count: endpoints that are absent **or** whose append
returned an error (spec §4.4 counts absent endpoints as errors). -/
def absentOrErrored (disks : List (Option StorageAPI)) (sts : List DiskState) : Nat :=
  (List.range disks.length).countP
    (fun i => !(diskPresent disks i) || (diskCallErr disks sts i).isSome)

/-- The code's failure count: endpoints that are present and whose append
returned an error (these are the only slots of `wErrs` that become non-nil). -/
def presentErrored (disks : List (Option StorageAPI)) (sts : List DiskState) : Nat :=
  (List.range disks.length).countP
    (fun i => diskPresent disks i && (diskCallErr disks sts i).isSome)

/-! ## Theorems -/

/-- C9: `isValidPath(path)` returns true iff `path` is non-empty, at most
4096 bytes long, and valid UTF-8; `isValidVolname(volname)` returns true
iff `volname` is between 3 and 63 bytes long and contains no `/`. -/
theorem claim9_path_volname_validity (path volname : List Nat) :
    (isValidPath path = true ↔
      path ≠ [] ∧ path.length ≤ 4096 ∧ validUTF8 path = true) ∧
    (isValidVolname volname = true ↔
      3 ≤ volname.length ∧ volname.length ≤ 63 ∧ ¬ 47 ∈ volname) := by
  constructor
  · unfold isValidPath pathMax
    by_cases h1 : path.length > 4096 ∨ path.length = 0
    · have hb : (path.length > 4096 || path.length == 0) = true := by
        rcases h1 with h | h <;> simp [h]
      rw [hb, if_pos rfl]
      constructor
      · intro h; cases h
      · rintro ⟨hne, hle, _⟩
        rcases h1 with h | h
        · omega
        · exact absurd (List.length_eq_zero.mp h) hne
    · push_neg at h1
      have hb : (path.length > 4096 || path.length == 0) = false := by
        simp only [Bool.or_eq_false_iff, decide_eq_false_iff_not, beq_eq_false_iff_ne, ne_eq]
        omega
      rw [hb, if_neg (by simp)]
      cases h2 : validUTF8 path
      · rw [if_pos (by simp)]
        simp [h2]
      · rw [if_neg (by simp)]
        have hne : path ≠ [] := by
          intro hc; exact h1.2 (by simp [hc])
        simp [hne, h2]
        omega
  · unfold isValidVolname
    by_cases h1 : volname.length < 3 ∨ volname.length > 63
    · have hb : (volname.length < 3 || volname.length > 63) = true := by
        rcases h1 with h | h <;> simp [h]
      rw [hb, if_pos rfl]
      constructor
      · intro h; cases h
      · rintro ⟨h3, h63, _⟩; omega
    · push_neg at h1
      have hb : (volname.length < 3 || volname.length > 63) = false := by
        simp only [Bool.or_eq_false_iff, decide_eq_false_iff_not]
        omega
      rw [hb, if_neg (by simp)]
      simp only [Bool.not_eq_true']
      constructor
      · intro h
        refine ⟨by omega, by omega, fun hc => ?_⟩
        rw [List.contains_eq_any_beq] at h
        simp only [List.any_eq_false, beq_iff_eq] at h
        exact h 47 hc rfl
      · rintro ⟨-, -, hc⟩
        rw [List.contains_eq_any_beq]
        simp only [List.any_eq_false, beq_iff_eq]
        intro a ha he; exact hc (he ▸ ha)

/-- C10: whenever `erasureCreateFile` returns a non-nil error, the returned
descriptor vector is nil and the returned size is 0. -/
theorem claim10_error_returns_nil_zero (disks : List (Option StorageAPI))
    (volume path partName : String) (data : ByteStream) (eInfos : List erasureInfo)
    (writeQuorum : Nat) (digest : List Nat → String) (e : ErasureError)
    (h : (erasureCreateFile disks volume path partName data eInfos writeQuorum digest).err
      = some e) :
    (erasureCreateFile disks volume path partName data eInfos writeQuorum digest).newEInfos
        = none ∧
    (erasureCreateFile disks volume path partName data eInfos writeQuorum digest).size
        = 0 := by
  unfold erasureCreateFile at h ⊢
  cases hr : (erasureLoop disks volume path (pickValidErasureInfo eInfos) writeQuorum
      (data.bytes.length + 2) data (newHashWriters disks.length)
      (List.replicate disks.length default) 0).err
  · simp [hr] at h
  · simp [hr]

/-- Witness for C10 at a concrete input: one present endpoint whose append
fails, so the zero-byte stripe loses the write quorum. -/
theorem claim10_witness :
    (erasureCreateFile [some ⟨fun _ => some 7⟩] "v" "p" "n" ⟨[], none⟩
        [⟨"rs", 1, 1, 4, [1, 2], []⟩] 1 (fun _ => "")).err
      = some (ErasureError.WriteQuorumLost "v" "p") ∧
    (erasureCreateFile [some ⟨fun _ => some 7⟩] "v" "p" "n" ⟨[], none⟩
        [⟨"rs", 1, 1, 4, [1, 2], []⟩] 1 (fun _ => "")).newEInfos = none ∧
    (erasureCreateFile [some ⟨fun _ => some 7⟩] "v" "p" "n" ⟨[], none⟩
        [⟨"rs", 1, 1, 4, [1, 2], []⟩] 1 (fun _ => "")).size = 0 :=
  ⟨by decide,
    claim10_error_returns_nil_zero [some ⟨fun _ => some 7⟩] "v" "p" "n" ⟨[], none⟩
      [⟨"rs", 1, 1, 4, [1, 2], []⟩] 1 (fun _ => "")
      (ErasureError.WriteQuorumLost "v" "p") (by decide)⟩

/-- C1 (counterexample): with one absent endpoint and `writeQuorum = 1`,
the stripe succeeds although `N - F = 1 - 1 = 0 < 1 = Q` when absent
endpoints are counted as failures, refuting the quoted quorum rule: the
absent slot's `wErrs` entry stays nil, so it counts as a success. -/
theorem claim1_counterexample :
    (appendFile [none] "v" "p" [[]] [1] [[]] [⟨[]⟩] 1).err = none ∧
    1 - absentOrErrored [none] [⟨[]⟩] < 1 := by decide

/-- C1 (amended): a stripe written by `appendFile` succeeds iff
`N - F' ≥ Q`, where `F'` counts only the **present** endpoints whose append
returned an error; absent (nil) endpoint handles leave their error slot nil
and therefore count as successes for quorum purposes. -/
theorem claim1_amended_quorum_iff (disks : List (Option StorageAPI))
    (volume path : String) (enBlocks : List (List Nat)) (distribution : List Nat)
    (hashWriters : List (List Nat)) (sts : List DiskState) (writeQuorum : Nat) :
    (appendFile disks volume path enBlocks distribution hashWriters sts writeQuorum).err
        = none ↔
      writeQuorum ≤ disks.length - presentErrored disks sts := by
  have hcount : ((List.range disks.length).map (diskCallErr disks sts)).countP
      (fun e => e.isSome) = presentErrored disks sts := by
    rw [List.countP_map]
    refine List.countP_congr (fun i _ => ?_)
    unfold Function.comp diskCallErr diskPresent
    cases h : disks.getD i none <;> simp [h]
  unfold appendFile isQuorum
  simp only [List.length_map, List.length_range, hcount]
  by_cases hq : writeQuorum ≤ disks.length - presentErrored disks sts
  · simp [hq]
  · simp [hq]

/-- C2 (counterexample): with a single invalid input descriptor the write
fails, but the error is the codec-construction error (the zero descriptor's
shard counts are invalid), not `GeometryUnavailable`. -/
theorem claim2_counterexample :
    (erasureCreateFile [] "v" "p" "n" ⟨[9], none⟩ [⟨"", 0, 0, 0, [], []⟩] 0
        (fun _ => "")).err = some ErasureError.CodecInit ∧
    some ErasureError.CodecInit ≠ some ErasureError.GeometryUnavailable := by decide

/-- C2 (amended): whenever no descriptor in `eInfos` is valid,
`erasureCreateFile` fails regardless of the stream, endpoints, volume, path
or quorum — but the error it returns is the codec-init error (`CodecInit`),
raised by `reedsolomon.New` on the zero geometry, not `GeometryUnavailable`. -/
theorem claim2_amended_no_valid_descriptor (disks : List (Option StorageAPI))
    (volume path partName : String) (data : ByteStream) (eInfos : List erasureInfo)
    (writeQuorum : Nat) (digest : List Nat → String)
    (hinv : ∀ e ∈ eInfos, e.IsValid = false) :
    (erasureCreateFile disks volume path partName data eInfos writeQuorum digest).err
      = some ErasureError.CodecInit := by
  have hpick : pickValidErasureInfo eInfos = ⟨"", 0, 0, 0, [], []⟩ := by
    unfold pickValidErasureInfo
    cases hf : eInfos.find? (fun e => e.IsValid) with
    | none => rfl
    | some e =>
      have h1 := List.find?_some hf
      have h2 := hinv e (List.mem_of_find?_eq_some hf)
      rw [h2] at h1
      cases h1
  obtain ⟨m, hm⟩ : ∃ m, data.bytes.length + 2 = m + 1 := ⟨data.bytes.length + 1, rfl⟩
  unfold erasureCreateFile
  rw [hpick, hm]
  simp [erasureLoop, readFull, encodeData, reedsolomonNew]

/-- Witness for C2 (amended) at a concrete input with one invalid
descriptor. -/
theorem claim2_witness :
    (∀ e ∈ [(⟨"", 0, 0, 0, [], []⟩ : erasureInfo)], e.IsValid = false) ∧
    (erasureCreateFile [] "vol" "pth" "prt" ⟨[3, 4], some 1⟩
        [⟨"", 0, 0, 0, [], []⟩] 9 (fun _ => "x")).err = some ErasureError.CodecInit :=
  ⟨by decide,
    claim2_amended_no_valid_descriptor [] "vol" "pth" "prt" ⟨[3, 4], some 1⟩
      [⟨"", 0, 0, 0, [], []⟩] 9 (fun _ => "x") (by decide)⟩

/-- C7: quorum monotonicity of the stripe verdict evaluated by `isQuorum`
(Go line 158): if the verdict is success on an error vector with `F` failed
entries, it is success on any equal-length error vector with fewer failed
entries. -/
theorem claim7_quorum_monotone (quorum : Nat) (errs errs2 : List (Option Nat))
    (hlen : errs2.length = errs.length)
    (hF : errs2.countP (fun e => e.isSome) < errs.countP (fun e => e.isSome))
    (hq : isQuorum errs quorum = true) :
    isQuorum errs2 quorum = true := by
  unfold isQuorum at hq ⊢
  have h1 : errs.countP (fun e => e.isSome) ≤ errs.length := List.countP_le_length _
  have h2 : errs2.countP (fun e => e.isSome) ≤ errs2.length := List.countP_le_length _
  simp only [decide_eq_true_eq] at hq ⊢
  omega

/-- Witness for C7: a two-endpoint vector with one failure meets quorum 1,
and so does the vector with no failures. -/
theorem claim7_witness :
    ([none, none] : List (Option Nat)).length = [none, some 0].length ∧
    ([none, none] : List (Option Nat)).countP (fun e => e.isSome)
      < ([none, some 0] : List (Option Nat)).countP (fun e => e.isSome) ∧
    isQuorum [none, some 0] 1 = true ∧
    isQuorum [none, none] 1 = true :=
  ⟨by decide, by decide, by decide,
    claim7_quorum_monotone 1 [none, some 0] [none, none] (by decide) (by decide) (by decide)⟩

/-! ### Characterization of the fan-out writer's effects -/

/-- The hash-update fold preserves the length of the hash array. -/
theorem foldSet_length (ok : Nat → Bool) (bIdx : Nat → Nat) (shardOf : Nat → List Nat)
    (l : List Nat) (hw : List (List Nat)) :
    (l.foldl (fun h i =>
        if ok i then h.set (bIdx i) (h.getD (bIdx i) [] ++ shardOf i) else h) hw).length
      = hw.length := by
  induction l generalizing hw with
  | nil => rfl
  | cons a t ih =>
    rw [List.foldl_cons, ih]
    split <;> simp

theorem getD_set_self {α : Type} (l : List α) (i : Nat) (a d : α)
    (h : i < l.length) : (l.set i a).getD i d = a := by
  rw [List.getD_eq_getElem _ _ (by simpa using h)]
  rw [List.getElem_set_self]

theorem getD_set_ne {α : Type} (l : List α) (i j : Nat) (a d : α)
    (h : i ≠ j) : (l.set i a).getD j d = l.getD j d := by
  rw [List.getD_eq_getD_get?, List.getD_eq_getD_get?, List.get?_eq_getElem?,
    List.get?_eq_getElem?, List.getElem?_set_ne h]

theorem getD_map_range {α : Type} (f : Nat → α) (n i : Nat) (d : α) (hi : i < n) :
    ((List.range n).map f).getD i d = f i := by
  rw [List.getD_eq_getElem _ _ (by simpa using hi)]
  simp

theorem getD_replicate {α : Type} (n i : Nat) (a d : α) (hi : i < n) :
    (List.replicate n a).getD i d = a := by
  rw [List.getD_eq_getElem _ _ (by simpa using hi)]
  simp

/-- Value of any slot of the hash array after the fold: the old value with
the shards of all indices that target that slot and succeeded, appended in
index order. -/
theorem foldSet_getD (ok : Nat → Bool) (bIdx : Nat → Nat) (shardOf : Nat → List Nat)
    (m : Nat) (hw : List (List Nat)) (k : Nat) (hk : k < hw.length) :
    ((List.range m).foldl (fun h i =>
        if ok i then h.set (bIdx i) (h.getD (bIdx i) [] ++ shardOf i) else h) hw).getD k []
      = hw.getD k [] ++
        (((List.range m).filter (fun i => ok i && bIdx i == k)).map shardOf).flatten := by
  induction m with
  | zero => simp
  | succ n ih =>
    rw [List.range_succ, List.foldl_append, List.filter_append, List.map_append,
      List.flatten_append]
    simp only [List.foldl_cons, List.foldl_nil]
    have hlen : ((List.range n).foldl (fun h i =>
        if ok i then h.set (bIdx i) (h.getD (bIdx i) [] ++ shardOf i) else h) hw).length
        = hw.length := foldSet_length ok bIdx shardOf _ hw
    cases hok : ok n with
    | false =>
      rw [if_neg (by simp [hok])]
      have hfn : List.filter (fun i => ok i && bIdx i == k) [n] = [] := by simp [hok]
      rw [hfn, ih]
      simp
    | true =>
      rw [if_pos rfl]
      by_cases hbi : bIdx n = k
      · rw [hbi, getD_set_self _ _ _ _ (by rw [hlen]; exact hk), ih]
        have hfn : List.filter (fun i => ok i && bIdx i == k) [n] = [n] := by
          simp [hok, hbi]
        rw [hfn]
        simp [List.append_assoc]
      · rw [getD_set_ne _ _ _ _ _ hbi, ih]
        have hfn : List.filter (fun i => ok i && bIdx i == k) [n] = [] := by
          simp [hok, hbi]
        rw [hfn]
        simp

/-- The result of filtering `range N` by a predicate with a unique satisfier. -/
theorem filter_range_eq_singleton (p : Nat → Bool) :
    ∀ N i : Nat, i < N → p i = true → (∀ j, j < N → p j = true → j = i) →
      (List.range N).filter p = [i] := by
  intro N
  induction N with
  | zero => intro i hi _ _; omega
  | succ n ih =>
    intro i hi hp huniq
    rw [List.range_succ, List.filter_append]
    by_cases hin : i = n
    · have h1 : (List.range n).filter p = [] := by
        rw [List.filter_eq_nil_iff]
        intro j hj hpj
        have hj' : j < n := by simpa using hj
        have := huniq j (by omega) hpj
        omega
      subst hin
      simp [h1, hp]
    · have hi' : i < n := by omega
      have h2 : (List.filter p [n]) = [] := by
        rw [List.filter_eq_nil_iff]
        intro j hj hpj
        have hj' : j = n := by simpa using hj
        subst hj'
        exact hin (huniq j (by omega) hpj).symm
      rw [ih i hi' hp (fun j hj hpj => huniq j (by omega) hpj), h2, List.append_nil]

/-- The states component of `appendFile`: each present disk gains one
recorded call with its shard, absent disks are untouched. -/
theorem appendFile_states (disks : List (Option StorageAPI)) (volume path : String)
    (enBlocks : List (List Nat)) (distribution : List Nat)
    (hashWriters : List (List Nat)) (sts : List DiskState) (writeQuorum : Nat) :
    (appendFile disks volume path enBlocks distribution hashWriters sts writeQuorum).states
      = (List.range sts.length).map fun i =>
          if diskPresent disks i then
            ⟨(sts.getD i default).calls ++ [enBlocks.getD (distribution.getD i 0 - 1) []]⟩
          else sts.getD i default := by
  unfold appendFile
  dsimp only
  split <;> rfl

/-- The verdict component of `appendFile`. -/
theorem appendFile_err (disks : List (Option StorageAPI)) (volume path : String)
    (enBlocks : List (List Nat)) (distribution : List Nat)
    (hashWriters : List (List Nat)) (sts : List DiskState) (writeQuorum : Nat) :
    (appendFile disks volume path enBlocks distribution hashWriters sts writeQuorum).err
      = if isQuorum ((List.range disks.length).map (diskCallErr disks sts)) writeQuorum
        then none else some (ErasureError.WriteQuorumLost volume path) := by
  unfold appendFile
  dsimp only
  split <;> simp_all

/-- The hash-array component of `appendFile`, pointwise. -/
theorem appendFile_hashWriters_getD (disks : List (Option StorageAPI))
    (volume path : String) (enBlocks : List (List Nat)) (distribution : List Nat)
    (hashWriters : List (List Nat)) (sts : List DiskState) (writeQuorum : Nat)
    (k : Nat) (hk : k < hashWriters.length) :
    (appendFile disks volume path enBlocks distribution hashWriters sts
        writeQuorum).hashWriters.getD k []
      = hashWriters.getD k [] ++
        (((List.range disks.length).filter
            (fun i => appendSucceeds disks sts i && (distribution.getD i 0 - 1) == k)).map
          (fun i => enBlocks.getD (distribution.getD i 0 - 1) [])).flatten := by
  unfold appendFile
  dsimp only
  split <;>
    exact foldSet_getD (appendSucceeds disks sts) (fun i => distribution.getD i 0 - 1)
      (fun i => enBlocks.getD (distribution.getD i 0 - 1) []) disks.length hashWriters k hk

/-- The hash-array component of `appendFile` keeps its length. -/
theorem appendFile_hashWriters_length (disks : List (Option StorageAPI))
    (volume path : String) (enBlocks : List (List Nat)) (distribution : List Nat)
    (hashWriters : List (List Nat)) (sts : List DiskState) (writeQuorum : Nat) :
    (appendFile disks volume path enBlocks distribution hashWriters sts
        writeQuorum).hashWriters.length = hashWriters.length := by
  unfold appendFile
  dsimp only
  split <;>
    exact foldSet_length (appendSucceeds disks sts) (fun i => distribution.getD i 0 - 1)
      (fun i => enBlocks.getD (distribution.getD i 0 - 1) []) _ hashWriters

/-- C4: per stripe, the hash at index `dist[i] - 1` is updated with the
shard bytes exactly when the append to endpoint `i` succeeded; a failed
append leaves that index unchanged, and every hash index not targeted by a
succeeding endpoint is unchanged.  The distribution is assumed injective on
the endpoint indices (spec §3: it is a permutation). -/
theorem claim4_hash_update_frame (disks : List (Option StorageAPI))
    (volume path : String) (enBlocks : List (List Nat)) (distribution : List Nat)
    (hashWriters : List (List Nat)) (sts : List DiskState) (writeQuorum : Nat)
    (hinj : ∀ i < disks.length, ∀ j < disks.length,
      distribution.getD i 0 - 1 = distribution.getD j 0 - 1 → i = j) :
    (∀ i < disks.length, ∀ d, disks.getD i none = some d →
      distribution.getD i 0 - 1 < hashWriters.length →
      ((d.appendErr (sts.getD i default).calls.length = none →
        (appendFile disks volume path enBlocks distribution hashWriters sts
            writeQuorum).hashWriters.getD (distribution.getD i 0 - 1) []
          = hashWriters.getD (distribution.getD i 0 - 1) [] ++
              enBlocks.getD (distribution.getD i 0 - 1) []) ∧
       ((d.appendErr (sts.getD i default).calls.length).isSome →
        (appendFile disks volume path enBlocks distribution hashWriters sts
            writeQuorum).hashWriters.getD (distribution.getD i 0 - 1) []
          = hashWriters.getD (distribution.getD i 0 - 1) []))) ∧
    (∀ k < hashWriters.length,
      (∀ i < disks.length, appendSucceeds disks sts i = true →
        distribution.getD i 0 - 1 ≠ k) →
      (appendFile disks volume path enBlocks distribution hashWriters sts
          writeQuorum).hashWriters.getD k []
        = hashWriters.getD k []) := by
  constructor
  · intro i hi d hd hk
    constructor
    · intro hok
      rw [appendFile_hashWriters_getD disks volume path enBlocks distribution
        hashWriters sts writeQuorum _ hk]
      have hsucc : appendSucceeds disks sts i = true := by
        unfold appendSucceeds diskPresent diskCallErr
        rw [hd]
        dsimp only
        rw [hok]
        rfl
      rw [filter_range_eq_singleton _ disks.length i hi (by simp [hsucc])
        (fun j hj hpj => by
          simp only [Bool.and_eq_true, beq_iff_eq] at hpj
          exact hinj j hj i hi hpj.2)]
      simp
    · intro herr
      rw [appendFile_hashWriters_getD disks volume path enBlocks distribution
        hashWriters sts writeQuorum _ hk]
      have hfail : appendSucceeds disks sts i = false := by
        unfold appendSucceeds diskPresent diskCallErr
        rw [hd]
        dsimp only
        cases hae : d.appendErr (sts.getD i default).calls.length with
        | none => rw [hae] at herr; exact absurd herr (by simp)
        | some c => rfl
      have hnil : ((List.range disks.length).filter
          (fun j => appendSucceeds disks sts j && (distribution.getD j 0 - 1)
            == (distribution.getD i 0 - 1))) = [] := by
        rw [List.filter_eq_nil_iff]
        intro j hj hpj
        simp only [Bool.and_eq_true, beq_iff_eq] at hpj
        have hji : j = i := hinj j (by simpa using hj) i hi hpj.2
        rw [hji, hfail] at hpj
        exact absurd hpj.1 (by simp)
      rw [hnil]
      simp
  · intro k hk hnone
    rw [appendFile_hashWriters_getD disks volume path enBlocks distribution
      hashWriters sts writeQuorum _ hk]
    have hnil : ((List.range disks.length).filter
        (fun j => appendSucceeds disks sts j && (distribution.getD j 0 - 1) == k)) = [] := by
      rw [List.filter_eq_nil_iff]
      intro j hj hpj
      simp only [Bool.and_eq_true, beq_iff_eq] at hpj
      exact hnone j (by simpa using hj) hpj.1 hpj.2
    rw [hnil]
    simp

/-- Witness for C4: two endpoints with distribution `[2, 1]`; the first
append succeeds, so hash 1 gains its shard; the second fails, so hash 0
is untouched. -/
theorem claim4_witness :
    (∀ i < 2, ∀ j < 2, ([2, 1] : List Nat).getD i 0 - 1
        = ([2, 1] : List Nat).getD j 0 - 1 → i = j) ∧
    (appendFile [some ⟨fun _ => none⟩, some ⟨fun _ => some 3⟩] "v" "p"
        [[7], [8, 9]] [2, 1] [[1], [2]] [⟨[]⟩, ⟨[]⟩] 1).hashWriters.getD 1 []
      = [2, 8, 9] ∧
    (appendFile [some ⟨fun _ => none⟩, some ⟨fun _ => some 3⟩] "v" "p"
        [[7], [8, 9]] [2, 1] [[1], [2]] [⟨[]⟩, ⟨[]⟩] 1).hashWriters.getD 0 []
      = [1] := by
  have h := claim4_hash_update_frame [some ⟨fun _ => none⟩, some ⟨fun _ => some 3⟩]
    "v" "p" [[7], [8, 9]] [2, 1] [[1], [2]] [⟨[]⟩, ⟨[]⟩] 1 (by decide)
  refine ⟨by decide, ?_, ?_⟩
  · have h0 := (h.1 0 (by decide) ⟨fun _ => none⟩ rfl (by decide)).1 rfl
    simpa using h0
  · have h1 := (h.1 1 (by decide) ⟨fun _ => some 3⟩ rfl (by decide)).2 rfl
    simpa using h1

/-! ### Loop invariant: the hash at an all-success endpoint's slot tracks
the concatenation of the shards appended to that endpoint -/

/-- One `appendFile` step preserves the invariant "the hash at endpoint
`i`'s slot equals the concatenation of the payloads appended to endpoint
`i`", for an endpoint whose appends all succeed, together with the array
lengths. -/
theorem appendFile_inv_step (disks : List (Option StorageAPI)) (volume path : String)
    (dist : List Nat) (Q : Nat) (i : Nat) (d : StorageAPI)
    (hi : i < disks.length) (hd : disks.getD i none = some d)
    (hdall : ∀ m, d.appendErr m = none)
    (hinj : ∀ a < disks.length, ∀ b < disks.length,
      dist.getD a 0 - 1 = dist.getD b 0 - 1 → a = b)
    (blocks : List (List Nat)) (hw : List (List Nat)) (sts : List DiskState)
    (hsl : sts.length = disks.length) (hhl : hw.length = disks.length)
    (hkN : dist.getD i 0 - 1 < disks.length)
    (hinv : hw.getD (dist.getD i 0 - 1) [] = ((sts.getD i default).calls).flatten) :
    (appendFile disks volume path blocks dist hw sts Q).hashWriters.getD
        (dist.getD i 0 - 1) []
      = (((appendFile disks volume path blocks dist hw sts Q).states.getD i
          default).calls).flatten ∧
    (appendFile disks volume path blocks dist hw sts Q).states.length = disks.length ∧
    (appendFile disks volume path blocks dist hw sts Q).hashWriters.length
      = disks.length := by
  have hsucc : appendSucceeds disks sts i = true := by
    unfold appendSucceeds diskPresent diskCallErr
    rw [hd]
    dsimp only
    rw [hdall]
    rfl
  have hpres : diskPresent disks i = true := by
    unfold diskPresent
    rw [hd]
    rfl
  have h1 := appendFile_hashWriters_getD disks volume path blocks dist hw sts Q
    (dist.getD i 0 - 1) (by omega)
  have hfilter : ((List.range disks.length).filter
      (fun j => appendSucceeds disks sts j && (dist.getD j 0 - 1) == (dist.getD i 0 - 1)))
      = [i] :=
    filter_range_eq_singleton _ disks.length i hi (by simp [hsucc])
      (fun j hj hpj => by
        simp only [Bool.and_eq_true, beq_iff_eq] at hpj
        exact hinj j hj i hi hpj.2)
  rw [hfilter] at h1
  have h2 : (appendFile disks volume path blocks dist hw sts Q).states.getD i default
      = ⟨(sts.getD i default).calls ++ [blocks.getD (dist.getD i 0 - 1) []]⟩ := by
    rw [appendFile_states, getD_map_range _ _ _ _ (by omega), hpres]
    simp
  refine ⟨?_, ?_, ?_⟩
  · rw [h1, h2, hinv]
    simp
  · rw [appendFile_states]
    simp [hsl]
  · rw [appendFile_hashWriters_length, hhl]

/-- Through the whole read loop, for an endpoint whose appends all succeed,
the hash at its distribution slot equals the concatenation of the payloads
appended to it, and the array lengths are preserved (on runs that return
without error). -/
theorem erasureLoop_hash_tracks_calls (disks : List (Option StorageAPI))
    (volume path : String) (e : erasureInfo) (Q : Nat) (i : Nat) (d : StorageAPI)
    (hi : i < disks.length) (hd : disks.getD i none = some d)
    (hdall : ∀ m, d.appendErr m = none)
    (hinj : ∀ a < disks.length, ∀ b < disks.length,
      e.Distribution.getD a 0 - 1 = e.Distribution.getD b 0 - 1 → a = b)
    (hkN : e.Distribution.getD i 0 - 1 < disks.length) :
    ∀ fuel s hw sts size,
      sts.length = disks.length →
      hw.length = disks.length →
      hw.getD (e.Distribution.getD i 0 - 1) [] = ((sts.getD i default).calls).flatten →
      (erasureLoop disks volume path e Q fuel s hw sts size).err = none →
      ((erasureLoop disks volume path e Q fuel s hw sts size).hashWriters.getD
          (e.Distribution.getD i 0 - 1) []
        = (((erasureLoop disks volume path e Q fuel s hw sts size).states.getD i
            default).calls).flatten) ∧
      (erasureLoop disks volume path e Q fuel s hw sts size).hashWriters.length
        = disks.length ∧
      (erasureLoop disks volume path e Q fuel s hw sts size).states.length
        = disks.length := by
  intro fuel
  induction fuel with
  | zero =>
    intro s hw sts size _ _ _ herr
    exact absurd herr (by simp [erasureLoop])
  | succ n ih =>
    intro s hw sts size hsl hhl hinv herr
    rcases hrf : readFull e.BlockSize s with ⟨rr, s2⟩
    rw [erasureLoop, hrf] at herr ⊢
    cases rr with
    | eof =>
      dsimp only at herr ⊢
      split at herr
      · rename_i hsz
        rw [if_pos hsz]
        have hstep := appendFile_inv_step disks volume path e.Distribution Q i d hi hd
          hdall hinj (List.replicate disks.length []) hw sts hsl hhl hkN hinv
        cases hre : (appendFile disks volume path (List.replicate disks.length [])
            e.Distribution hw sts Q).err with
        | some er => rw [hre] at herr; exact absurd herr (by simp)
        | none =>
          rw [hre] at herr
          dsimp only at herr ⊢
          exact ⟨hstep.1, hstep.2.2, hstep.2.1⟩
      · rename_i hsz
        rw [if_neg hsz]
        dsimp only
        exact ⟨hinv, hhl, hsl⟩
    | fail c =>
      dsimp only at herr
      exact absurd herr (by simp)
    | full chunk =>
      dsimp only at herr ⊢
      cases hec : encodeData chunk e.DataBlocks e.ParityBlocks with
      | error er =>
        rw [hec] at herr
        dsimp only at herr
        exact absurd herr (by simp)
      | ok blocks =>
        rw [hec] at herr
        dsimp only at herr ⊢
        have hstep := appendFile_inv_step disks volume path e.Distribution Q i d hi hd
          hdall hinj blocks hw sts hsl hhl hkN hinv
        cases hre : (appendFile disks volume path blocks e.Distribution hw sts Q).err with
        | some er => rw [hre] at herr; exact absurd herr (by simp)
        | none =>
          rw [hre] at herr
          dsimp only at herr ⊢
          exact ih s2 _ _ _ hstep.2.1 hstep.2.2 hstep.1 herr
    | short chunk =>
      dsimp only at herr ⊢
      cases hec : encodeData chunk e.DataBlocks e.ParityBlocks with
      | error er =>
        rw [hec] at herr
        dsimp only at herr
        exact absurd herr (by simp)
      | ok blocks =>
        rw [hec] at herr
        dsimp only at herr ⊢
        have hstep := appendFile_inv_step disks volume path e.Distribution Q i d hi hd
          hdall hinj blocks hw sts hsl hhl hkN hinv
        cases hre : (appendFile disks volume path blocks e.Distribution hw sts Q).err with
        | some er => rw [hre] at herr; exact absurd herr (by simp)
        | none =>
          rw [hre] at herr
          dsimp only at herr ⊢
          exact ih s2 _ _ _ hstep.2.1 hstep.2.2 hstep.1 herr

/-! ### Characterization of the checksum finalizer -/

/-- A fold of slot writes (the same value for the same slot) keeps the
list length. -/
theorem foldRangeSetV_length {α : Type} (V : Nat → α) (bIdx : Nat → Nat)
    (l : List Nat) (cs : List α) :
    (l.foldl (fun c idx => c.set (bIdx idx) (V (bIdx idx))) cs).length = cs.length := by
  induction l generalizing cs with
  | nil => rfl
  | cons a t ih => rw [List.foldl_cons, ih]; simp

/-- After folding slot writes over `range m`, a slot that some index below
`m` targets holds the written value (all writes to one slot agree, so the
order is irrelevant). -/
theorem foldRangeSetV_getD {α : Type} [Inhabited α] (V : Nat → α) (bIdx : Nat → Nat) :
    ∀ (m : Nat) (cs : List α) (k : Nat), k < cs.length →
      (∃ idx, idx < m ∧ bIdx idx = k) →
      ((List.range m).foldl (fun c idx => c.set (bIdx idx) (V (bIdx idx))) cs).getD k default
        = V k := by
  intro m
  induction m with
  | zero =>
    intro cs k _ hex
    obtain ⟨idx, hidx, _⟩ := hex
    omega
  | succ n ih =>
    intro cs k hk hex
    rw [List.range_succ, List.foldl_append]
    simp only [List.foldl_cons, List.foldl_nil]
    have hlen : ((List.range n).foldl
        (fun c idx => c.set (bIdx idx) (V (bIdx idx))) cs).length = cs.length :=
      foldRangeSetV_length V bIdx _ cs
    by_cases hbn : bIdx n = k
    · rw [hbn, getD_set_self _ _ _ _ (by omega)]
    · rw [getD_set_ne _ _ _ _ _ hbn]
      obtain ⟨idx, hidx, hbi⟩ := hex
      have hidx' : idx < n := by
        rcases Nat.lt_succ_iff_lt_or_eq.mp hidx with h | h
        · exact h
        · subst h; exact absurd hbi hbn
      exact ih cs k hk ⟨idx, hidx', hbi⟩

/-- A fold of per-index conditional writes (`acc.set j (g j)` at iteration
`j`) keeps the list length. -/
theorem foldRangeSetIdx_length {α : Type} (P : Nat → Bool) (g : Nat → α)
    (l : List Nat) (acc : List α) :
    (l.foldl (fun a j => if P j then a.set j (g j) else a) acc).length = acc.length := by
  induction l generalizing acc with
  | nil => rfl
  | cons x t ih =>
    rw [List.foldl_cons, ih]
    split <;> simp

/-- A slot not yet visited by the per-index fold is unchanged. -/
theorem foldRangeSetIdx_getD_ge {α : Type} [Inhabited α] (P : Nat → Bool) (g : Nat → α) :
    ∀ (m : Nat) (acc : List α) (idx : Nat), m ≤ idx →
      ((List.range m).foldl (fun a j => if P j then a.set j (g j) else a) acc).getD idx
          default
        = acc.getD idx default := by
  intro m
  induction m with
  | zero => intro acc idx _; rfl
  | succ n ih =>
    intro acc idx hge
    rw [List.range_succ, List.foldl_append]
    simp only [List.foldl_cons, List.foldl_nil]
    have hne : n ≠ idx := by omega
    cases hp : P n with
    | true => rw [if_pos rfl, getD_set_ne _ _ _ _ _ hne, ih acc idx (by omega)]
    | false => rw [if_neg (by simp), ih acc idx (by omega)]

/-- Value of slot `idx` after the per-index fold over `range m` with
`idx < m`: the iteration `j = idx` decides it. -/
theorem foldRangeSetIdx_getD_lt {α : Type} [Inhabited α] (P : Nat → Bool) (g : Nat → α) :
    ∀ (m : Nat) (acc : List α) (idx : Nat), idx < m → idx < acc.length →
      ((List.range m).foldl (fun a j => if P j then a.set j (g j) else a) acc).getD idx
          default
        = if P idx then g idx else acc.getD idx default := by
  intro m
  induction m with
  | zero => intro acc idx h; omega
  | succ n ih =>
    intro acc idx hlt hle
    rw [List.range_succ, List.foldl_append]
    simp only [List.foldl_cons, List.foldl_nil]
    have hlen : ((List.range n).foldl
        (fun a j => if P j then a.set j (g j) else a) acc).length = acc.length :=
      foldRangeSetIdx_length P g _ acc
    by_cases hin : idx = n
    · subst hin
      cases hp : P idx with
      | true => rw [if_pos rfl, getD_set_self _ _ _ _ (by omega), if_pos rfl]
      | false =>
        rw [if_neg (by simp), if_neg (by simp [hp]),
          foldRangeSetIdx_getD_ge P g idx acc idx (by omega)]
    · have hidx' : idx < n := by omega
      cases hp : P n with
      | true => rw [if_pos rfl, getD_set_ne _ _ _ _ _ (by omega), ih acc idx hidx' hle]
      | false => rw [if_neg (by simp), ih acc idx hidx' hle]

/-- `buildCheckSums` keeps the vector length `numDisks`. -/
theorem buildCheckSums_length (numDisks : Nat) (partName : String) (dist : List Nat)
    (hw : List (List Nat)) (digest : List Nat → String) :
    (buildCheckSums numDisks partName dist hw digest).length = numDisks := by
  unfold buildCheckSums
  show ((List.range numDisks).foldl
      (fun c idx => c.set (dist.getD idx 0 - 1)
        ((fun j => (⟨partName, "sha512", digest (hw.getD j [])⟩ : checkSumInfo))
          (dist.getD idx 0 - 1)))
      (List.replicate numDisks default)).length = numDisks
  rw [foldRangeSetV_length (fun j => (⟨partName, "sha512", digest (hw.getD j [])⟩ :
    checkSumInfo)) (fun idx => dist.getD idx 0 - 1)]
  simp

/-- The slot of `checkSums` targeted by any endpoint index holds the entry
`{partName, "sha512", digest(hash at that slot)}`. -/
theorem buildCheckSums_getD (numDisks : Nat) (partName : String) (dist : List Nat)
    (hw : List (List Nat)) (digest : List Nat → String) (k : Nat) (hk : k < numDisks)
    (idx : Nat) (hidx : idx < numDisks) (hbi : dist.getD idx 0 - 1 = k) :
    (buildCheckSums numDisks partName dist hw digest).getD k default
      = ⟨partName, "sha512", digest (hw.getD k [])⟩ := by
  unfold buildCheckSums
  show ((List.range numDisks).foldl
      (fun c idx2 => c.set (dist.getD idx2 0 - 1)
        ((fun j => (⟨partName, "sha512", digest (hw.getD j [])⟩ : checkSumInfo))
          (dist.getD idx2 0 - 1)))
      (List.replicate numDisks default)).getD k default
    = ⟨partName, "sha512", digest (hw.getD k [])⟩
  rw [foldRangeSetV_getD (fun j => (⟨partName, "sha512", digest (hw.getD j [])⟩ :
    checkSumInfo)) (fun idx2 => dist.getD idx2 0 - 1) numDisks _ k (by simpa using hk)
    ⟨idx, hidx, hbi⟩]

/-- `updateEInfos` keeps the vector length `numDisks`. -/
theorem updateEInfos_length (numDisks : Nat) (eInfos : List erasureInfo)
    (checkSums : List checkSumInfo) :
    (updateEInfos numDisks eInfos checkSums).length = numDisks := by
  unfold updateEInfos
  show ((List.range eInfos.length).foldl
      (fun a j => if (eInfos.getD j default).IsValid then
        a.set j ((fun j => (⟨(eInfos.getD j default).Algorithm,
          (eInfos.getD j default).DataBlocks, (eInfos.getD j default).ParityBlocks,
          (eInfos.getD j default).BlockSize, (eInfos.getD j default).Distribution,
          (eInfos.getD j default).Checksum ++
            [checkSums.getD ((eInfos.getD j default).Distribution.getD j 0 - 1) default]⟩ :
          erasureInfo)) j)
        else a)
      (List.replicate numDisks default)).length = numDisks
  rw [foldRangeSetIdx_length (fun j => (eInfos.getD j default).IsValid)
    (fun j => (⟨(eInfos.getD j default).Algorithm,
      (eInfos.getD j default).DataBlocks, (eInfos.getD j default).ParityBlocks,
      (eInfos.getD j default).BlockSize, (eInfos.getD j default).Distribution,
      (eInfos.getD j default).Checksum ++
        [checkSums.getD ((eInfos.getD j default).Distribution.getD j 0 - 1) default]⟩ :
      erasureInfo))]
  simp

/-- Slot `idx` of the output descriptor vector: a valid input descriptor is
copied with the checksum entry at its **own** distribution's index appended;
an invalid one leaves the zero descriptor. -/
theorem updateEInfos_getD (numDisks : Nat) (eInfos : List erasureInfo)
    (checkSums : List checkSumInfo) (idx : Nat) (hidx : idx < eInfos.length)
    (hnd : idx < numDisks) :
    (updateEInfos numDisks eInfos checkSums).getD idx default
      = if (eInfos.getD idx default).IsValid then
          { eInfos.getD idx default with
            Checksum := (eInfos.getD idx default).Checksum ++
              [checkSums.getD
                ((eInfos.getD idx default).Distribution.getD idx 0 - 1) default] }
        else default := by
  unfold updateEInfos
  show ((List.range eInfos.length).foldl
      (fun a j => if (eInfos.getD j default).IsValid then
        a.set j ((fun j => (⟨(eInfos.getD j default).Algorithm,
          (eInfos.getD j default).DataBlocks, (eInfos.getD j default).ParityBlocks,
          (eInfos.getD j default).BlockSize, (eInfos.getD j default).Distribution,
          (eInfos.getD j default).Checksum ++
            [checkSums.getD ((eInfos.getD j default).Distribution.getD j 0 - 1) default]⟩ :
          erasureInfo)) j)
        else a)
      (List.replicate numDisks default)).getD idx default
    = if (eInfos.getD idx default).IsValid then
        { eInfos.getD idx default with
          Checksum := (eInfos.getD idx default).Checksum ++
            [checkSums.getD
              ((eInfos.getD idx default).Distribution.getD idx 0 - 1) default] }
      else default
  rw [foldRangeSetIdx_getD_lt (fun j => (eInfos.getD j default).IsValid)
    (fun j => (⟨(eInfos.getD j default).Algorithm,
      (eInfos.getD j default).DataBlocks, (eInfos.getD j default).ParityBlocks,
      (eInfos.getD j default).BlockSize, (eInfos.getD j default).Distribution,
      (eInfos.getD j default).Checksum ++
        [checkSums.getD ((eInfos.getD j default).Distribution.getD j 0 - 1) default]⟩ :
      erasureInfo))
    eInfos.length _ idx hidx (by simpa using hnd)]
  by_cases hcond : (eInfos.getD idx default).IsValid = true
  · rw [if_pos hcond, if_pos hcond]
  · rw [if_neg hcond, if_neg hcond]
    exact getD_replicate _ _ _ _ hnd

/-- If some member of `eInfos` is valid, the selected descriptor is valid. -/
theorem pickValid_isValid (eInfos : List erasureInfo)
    (h : ∃ x ∈ eInfos, x.IsValid = true) :
    (pickValidErasureInfo eInfos).IsValid = true := by
  unfold pickValidErasureInfo
  cases hf : eInfos.find? (fun e => e.IsValid) with
  | some e => exact List.find?_some hf
  | none =>
    obtain ⟨x, hx, hv⟩ := h
    exact absurd hv (List.find?_eq_none.mp hf x hx)

/-- Facts about the distribution of a valid descriptor: its length is
`D + P`, its entries lie in `1..D+P`, and it has no duplicates. -/
theorem valid_dist_facts (e : erasureInfo) (hv : e.IsValid = true) :
    e.Distribution.length = e.DataBlocks + e.ParityBlocks ∧
    (∀ j < e.Distribution.length,
      1 ≤ e.Distribution.getD j 0 ∧
      e.Distribution.getD j 0 ≤ e.DataBlocks + e.ParityBlocks) ∧
    e.Distribution.Nodup := by
  unfold erasureInfo.IsValid at hv
  simp only [Bool.and_eq_true, decide_eq_true_eq] at hv
  have hperm : List.Perm e.Distribution
      (List.range' 1 (e.DataBlocks + e.ParityBlocks)) := hv.2
  refine ⟨?_, ?_, ?_⟩
  · rw [hperm.length_eq, List.length_range']
  · intro j hj
    have hmem : e.Distribution.getD j 0 ∈ e.Distribution := by
      rw [List.getD_eq_getElem _ _ hj]
      exact List.getElem_mem hj
    have hmem' := hperm.mem_iff.mp hmem
    rw [List.mem_range'_1] at hmem'
    omega
  · exact hperm.nodup_iff.mpr (List.nodup_range' 1 (e.DataBlocks + e.ParityBlocks))

/-- Injectivity of `i ↦ dist[i] - 1` on endpoint indices, for the
distribution of a valid descriptor. -/
theorem valid_dist_inj (e : erasureInfo) (hv : e.IsValid = true) :
    ∀ a < e.Distribution.length, ∀ b < e.Distribution.length,
      e.Distribution.getD a 0 - 1 = e.Distribution.getD b 0 - 1 → a = b := by
  obtain ⟨hlen, hval, hnd⟩ := valid_dist_facts e hv
  intro a ha b hb heq
  have hva := (hval a ha).1
  have hvb := (hval b hb).1
  have heq' : e.Distribution.getD a 0 = e.Distribution.getD b 0 := by omega
  rw [List.getD_eq_getElem _ _ ha, List.getD_eq_getElem _ _ hb] at heq'
  have := List.Nodup.getElem_inj_iff hnd |>.mp heq'
  simpa using this

/-- On a run that returns no error, `erasureCreateFile` returns the
finalized descriptor vector built from the loop's final hash array. -/
theorem erasureCreateFile_success_spec (disks : List (Option StorageAPI))
    (volume path partName : String) (data : ByteStream) (eInfos : List erasureInfo)
    (writeQuorum : Nat) (digest : List Nat → String)
    (herr : (erasureCreateFile disks volume path partName data eInfos writeQuorum
      digest).err = none) :
    (erasureCreateFile disks volume path partName data eInfos writeQuorum digest).newEInfos
      = some (updateEInfos disks.length eInfos
          (buildCheckSums disks.length partName (pickValidErasureInfo eInfos).Distribution
            (erasureCreateFile disks volume path partName data eInfos writeQuorum
              digest).hashWriters digest)) ∧
    (erasureCreateFile disks volume path partName data eInfos writeQuorum
        digest).hashWriters
      = (erasureLoop disks volume path (pickValidErasureInfo eInfos) writeQuorum
          (data.bytes.length + 2) data (newHashWriters disks.length)
          (List.replicate disks.length default) 0).hashWriters ∧
    (erasureCreateFile disks volume path partName data eInfos writeQuorum
        digest).diskStates
      = (erasureLoop disks volume path (pickValidErasureInfo eInfos) writeQuorum
          (data.bytes.length + 2) data (newHashWriters disks.length)
          (List.replicate disks.length default) 0).states ∧
    (erasureLoop disks volume path (pickValidErasureInfo eInfos) writeQuorum
        (data.bytes.length + 2) data (newHashWriters disks.length)
        (List.replicate disks.length default) 0).err = none := by
  unfold erasureCreateFile at herr ⊢
  cases hr : (erasureLoop disks volume path (pickValidErasureInfo eInfos) writeQuorum
      (data.bytes.length + 2) data (newHashWriters disks.length)
      (List.replicate disks.length default) 0).err with
  | some er => simp [hr] at herr
  | none => simp [hr]

/-- C3 (counterexample): three present endpoints that all succeed, but the
second descriptor's distribution (`[2,1,3]`) differs from the selected
first one (`[1,2,3]`).  The digest recorded in endpoint 1's output
descriptor is the digest of `[1,2]` (`"3"` under the stand-in digest), while
the bytes actually appended to endpoint 1 are `[3,4]` with digest `"7"`. -/
theorem claim3_counterexample :
    (((erasureCreateFile
          [some ⟨fun _ => none⟩, some ⟨fun _ => none⟩, some ⟨fun _ => none⟩] "v" "p" "n"
          ⟨[1, 2, 3, 4], none⟩
          [⟨"rs", 2, 1, 4, [1, 2, 3], []⟩, ⟨"rs", 2, 1, 4, [2, 1, 3], []⟩,
            ⟨"rs", 2, 1, 4, [1, 2, 3], []⟩] 3
          (fun l => toString l.sum)).newEInfos.getD []).getD 1 default).Checksum
      = [⟨"n", "sha512", "3"⟩] ∧
    (fun l => toString l.sum)
        ((((erasureCreateFile
          [some ⟨fun _ => none⟩, some ⟨fun _ => none⟩, some ⟨fun _ => none⟩] "v" "p" "n"
          ⟨[1, 2, 3, 4], none⟩
          [⟨"rs", 2, 1, 4, [1, 2, 3], []⟩, ⟨"rs", 2, 1, 4, [2, 1, 3], []⟩,
            ⟨"rs", 2, 1, 4, [1, 2, 3], []⟩] 3
          (fun l => toString l.sum)).diskStates.getD 1 default).calls).flatten)
      = "7" ∧
    ¬ ([(⟨"n", "sha512", "3"⟩ : checkSumInfo)] = [(⟨"n", "sha512", "7"⟩ : checkSumInfo)]) := by
  decide

/-- C3 (amended): for every endpoint `i` whose descriptor is valid and
**whose distribution agrees with the selected descriptor's**, all of whose
per-stripe appends succeeded, on a successful write the digest recorded in
`newEInfos[i]` is the digest of the concatenation, in stripe order, of the
byte payloads appended to endpoint `i`. -/
theorem claim3_amended_hash_agreement (disks : List (Option StorageAPI))
    (volume path partName : String) (data : ByteStream) (eInfos : List erasureInfo)
    (writeQuorum : Nat) (digest : List Nat → String) (i : Nat) (d : StorageAPI)
    (hlen : eInfos.length = disks.length)
    (hi : i < disks.length)
    (hd : disks.getD i none = some d)
    (hdall : ∀ m, d.appendErr m = none)
    (hivalid : (eInfos.getD i default).IsValid = true)
    (hN : disks.length
      = (pickValidErasureInfo eInfos).DataBlocks + (pickValidErasureInfo eInfos).ParityBlocks)
    (hagree : (eInfos.getD i default).Distribution
      = (pickValidErasureInfo eInfos).Distribution)
    (herr : (erasureCreateFile disks volume path partName data eInfos writeQuorum
      digest).err = none) :
    ∃ out, (erasureCreateFile disks volume path partName data eInfos writeQuorum
        digest).newEInfos = some out ∧
      (out.getD i default).Checksum
        = (eInfos.getD i default).Checksum ++
          [⟨partName, "sha512",
            digest ((((erasureCreateFile disks volume path partName data eInfos
              writeQuorum digest).diskStates.getD i default).calls).flatten)⟩] := by
  obtain ⟨hout, hhw, hds, hloopnone⟩ := erasureCreateFile_success_spec disks volume path
    partName data eInfos writeQuorum digest herr
  have hpv : (pickValidErasureInfo eInfos).IsValid = true := by
    apply pickValid_isValid
    refine ⟨eInfos.getD i default, ?_, hivalid⟩
    rw [List.getD_eq_getElem _ _ (by omega)]
    exact List.getElem_mem _
  obtain ⟨hdlen, hdval, -⟩ := valid_dist_facts _ hpv
  have hdlen' : (pickValidErasureInfo eInfos).Distribution.length = disks.length := by
    rw [hdlen]; omega
  have hinj : ∀ a < disks.length, ∀ b < disks.length,
      (pickValidErasureInfo eInfos).Distribution.getD a 0 - 1
        = (pickValidErasureInfo eInfos).Distribution.getD b 0 - 1 → a = b := by
    intro a ha b hb
    exact valid_dist_inj _ hpv a (by omega) b (by omega)
  have hkN : (pickValidErasureInfo eInfos).Distribution.getD i 0 - 1 < disks.length := by
    have := hdval i (by omega)
    omega
  have hinv0 : (newHashWriters disks.length).getD
      ((pickValidErasureInfo eInfos).Distribution.getD i 0 - 1) []
      = (((List.replicate disks.length (default : DiskState)).getD i default).calls).flatten := by
    unfold newHashWriters
    rw [getD_replicate _ _ _ _ hkN, getD_replicate _ _ _ _ hi]
    rfl
  obtain ⟨hweq, hwlen, hstlen⟩ := erasureLoop_hash_tracks_calls disks volume path
    (pickValidErasureInfo eInfos) writeQuorum i d hi hd hdall hinj hkN
    (data.bytes.length + 2) data (newHashWriters disks.length)
    (List.replicate disks.length default) 0
    (by simp) (by simp [newHashWriters]) hinv0 hloopnone
  refine ⟨_, hout, ?_⟩
  have hcs : (buildCheckSums disks.length partName
      (pickValidErasureInfo eInfos).Distribution
      (erasureCreateFile disks volume path partName data eInfos writeQuorum
        digest).hashWriters digest).getD
      ((pickValidErasureInfo eInfos).Distribution.getD i 0 - 1) default
      = ⟨partName, "sha512",
          digest ((erasureCreateFile disks volume path partName data eInfos writeQuorum
            digest).hashWriters.getD
            ((pickValidErasureInfo eInfos).Distribution.getD i 0 - 1) [])⟩ :=
    buildCheckSums_getD _ _ _ _ _ _ hkN i hi rfl
  have hdigest : (erasureCreateFile disks volume path partName data eInfos writeQuorum
      digest).hashWriters.getD ((pickValidErasureInfo eInfos).Distribution.getD i 0 - 1) []
      = ((((erasureCreateFile disks volume path partName data eInfos writeQuorum
          digest).diskStates.getD i default).calls)).flatten := by
    rw [hhw, hds]
    exact hweq
  rw [updateEInfos_getD disks.length eInfos _ i (by omega) hi, if_pos hivalid]
  dsimp only
  rw [hagree, hcs, hdigest]

/-- Witness for C3 (amended): a concrete successful two-endpoint run
(`D = P = 1`, block size 2, stream `[5, 9]`). -/
theorem claim3_witness :
    ((([⟨"rs", 1, 1, 2, [1, 2], []⟩, ⟨"rs", 1, 1, 2, [1, 2], []⟩] :
        List erasureInfo).length = 2) ∧
      (0 : Nat) < 2 ∧
      ((erasureCreateFile [some ⟨fun _ => none⟩, some ⟨fun _ => none⟩] "v" "p" "n"
        ⟨[5, 9], none⟩ [⟨"rs", 1, 1, 2, [1, 2], []⟩, ⟨"rs", 1, 1, 2, [1, 2], []⟩] 2
        (fun l => toString l.sum)).err = none)) ∧
    ∃ out, (erasureCreateFile [some ⟨fun _ => none⟩, some ⟨fun _ => none⟩] "v" "p" "n"
        ⟨[5, 9], none⟩ [⟨"rs", 1, 1, 2, [1, 2], []⟩, ⟨"rs", 1, 1, 2, [1, 2], []⟩] 2
        (fun l => toString l.sum)).newEInfos = some out ∧
      (out.getD 0 default).Checksum
        = (([⟨"rs", 1, 1, 2, [1, 2], []⟩, ⟨"rs", 1, 1, 2, [1, 2], []⟩] :
            List erasureInfo).getD 0 default).Checksum ++
          [⟨"n", "sha512",
            (fun l => toString l.sum)
              ((((erasureCreateFile [some ⟨fun _ => none⟩, some ⟨fun _ => none⟩] "v" "p" "n"
                ⟨[5, 9], none⟩ [⟨"rs", 1, 1, 2, [1, 2], []⟩, ⟨"rs", 1, 1, 2, [1, 2], []⟩] 2
                (fun l => toString l.sum)).diskStates.getD 0 default).calls).flatten)⟩] :=
  ⟨⟨by decide, by decide, by decide⟩,
    claim3_amended_hash_agreement [some ⟨fun _ => none⟩, some ⟨fun _ => none⟩] "v" "p" "n"
      ⟨[5, 9], none⟩ [⟨"rs", 1, 1, 2, [1, 2], []⟩, ⟨"rs", 1, 1, 2, [1, 2], []⟩] 2
      (fun l => toString l.sum) 0 ⟨fun _ => none⟩ (by decide) (by decide) rfl
      (fun m => rfl) (by decide) (by decide) (by decide) (by decide)⟩

/-! ### Inversion of the read step and codec facts -/

/-- `readFull` yields `eof` exactly on an exhausted stream with clean EOF. -/
theorem readFull_eof_inv (B : Nat) (s s2 : ByteStream)
    (h : readFull B s = (ReadResult.eof, s2)) :
    s.bytes.length = 0 ∧ s.readErr = none ∧ 0 < B := by
  unfold readFull at h
  by_cases h0 : (B == 0) = true
  · rw [if_pos h0] at h; cases h
  · rw [if_neg h0] at h
    by_cases h1 : B ≤ s.bytes.length
    · rw [if_pos h1] at h; cases h
    · rw [if_neg h1] at h
      by_cases h2 : (s.bytes.length == 0) = true
      · rw [if_pos h2] at h
        cases hre : s.readErr with
        | none =>
          simp only [beq_iff_eq] at h0 h2
          exact ⟨h2, rfl, by omega⟩
        | some c => rw [hre] at h; cases h
      · rw [if_neg h2] at h
        cases hre : s.readErr with
        | none => rw [hre] at h; cases h
        | some c => rw [hre] at h; cases h

/-- `readFull` yields a full block either trivially (`B = 0`) or by
consuming exactly `B` bytes. -/
theorem readFull_full_inv (B : Nat) (s s2 : ByteStream) (chunk : List Nat)
    (h : readFull B s = (ReadResult.full chunk, s2)) :
    (B = 0 ∧ chunk = [] ∧ s2 = s) ∨
    (0 < B ∧ B ≤ s.bytes.length ∧ chunk = s.bytes.take B ∧
      s2 = ⟨s.bytes.drop B, s.readErr⟩) := by
  unfold readFull at h
  by_cases h0 : (B == 0) = true
  · rw [if_pos h0] at h
    simp only [beq_iff_eq] at h0
    injection h with h1 h2
    injection h1 with h3
    exact Or.inl ⟨h0, h3.symm, h2.symm⟩
  · rw [if_neg h0] at h
    by_cases h1 : B ≤ s.bytes.length
    · rw [if_pos h1] at h
      simp only [beq_iff_eq] at h0
      injection h with h2 h3
      injection h2 with h4
      exact Or.inr ⟨by omega, h1, h4.symm, h3.symm⟩
    · rw [if_neg h1] at h
      by_cases h2 : (s.bytes.length == 0) = true
      · rw [if_pos h2] at h
        cases hre : s.readErr with
        | none => rw [hre] at h; cases h
        | some c => rw [hre] at h; cases h
      · rw [if_neg h2] at h
        cases hre : s.readErr with
        | none => rw [hre] at h; cases h
        | some c => rw [hre] at h; cases h

/-- `readFull` yields a short block exactly on a final partial block with
clean EOF behind it. -/
theorem readFull_short_inv (B : Nat) (s s2 : ByteStream) (chunk : List Nat)
    (h : readFull B s = (ReadResult.short chunk, s2)) :
    0 < s.bytes.length ∧ s.bytes.length < B ∧ chunk = s.bytes ∧
      s2 = ⟨[], none⟩ ∧ s.readErr = none := by
  unfold readFull at h
  by_cases h0 : (B == 0) = true
  · rw [if_pos h0] at h; cases h
  · rw [if_neg h0] at h
    by_cases h1 : B ≤ s.bytes.length
    · rw [if_pos h1] at h; cases h
    · rw [if_neg h1] at h
      by_cases h2 : (s.bytes.length == 0) = true
      · rw [if_pos h2] at h
        cases hre : s.readErr with
        | none => rw [hre] at h; cases h
        | some c => rw [hre] at h; cases h
      · rw [if_neg h2] at h
        cases hre : s.readErr with
        | none =>
          rw [hre] at h
          simp only [beq_iff_eq] at h2
          injection h with h3 h4
          injection h3 with h5
          exact ⟨by omega, by omega, h5.symm, h4.symm, rfl⟩
        | some c => rw [hre] at h; cases h

/-- State of a present disk after one `appendFile`: one more recorded call
with the disk's shard. -/
theorem appendFile_states_getD_present (disks : List (Option StorageAPI))
    (volume path : String) (enBlocks : List (List Nat)) (dist : List Nat)
    (hw : List (List Nat)) (sts : List DiskState) (Q : Nat) (i : Nat) (d : StorageAPI)
    (hi : i < disks.length) (hsl : sts.length = disks.length)
    (hd : disks.getD i none = some d) :
    (appendFile disks volume path enBlocks dist hw sts Q).states.getD i default
      = ⟨(sts.getD i default).calls ++ [enBlocks.getD (dist.getD i 0 - 1) []]⟩ := by
  rw [appendFile_states, getD_map_range _ _ _ _ (by omega)]
  have hp : diskPresent disks i = true := by
    unfold diskPresent; rw [hd]; rfl
  rw [if_pos hp]

/-- State of an absent disk after one `appendFile`: unchanged. -/
theorem appendFile_states_getD_absent (disks : List (Option StorageAPI))
    (volume path : String) (enBlocks : List (List Nat)) (dist : List Nat)
    (hw : List (List Nat)) (sts : List DiskState) (Q : Nat) (i : Nat)
    (hi : i < disks.length) (hsl : sts.length = disks.length)
    (hd : disks.getD i none = none) :
    (appendFile disks volume path enBlocks dist hw sts Q).states.getD i default
      = sts.getD i default := by
  rw [appendFile_states, getD_map_range _ _ _ _ (by omega)]
  have hp : diskPresent disks i = false := by
    unfold diskPresent; rw [hd]; rfl
  rw [if_neg (by simp [hp])]

/-- `reedsolomon.New` succeeds exactly on positive shard counts of total at
most 255. -/
theorem reedsolomonNew_none (D P : Nat) (h : reedsolomonNew D P = none) :
    0 < D ∧ 0 < P ∧ D + P ≤ 255 := by
  unfold reedsolomonNew at h
  by_cases hc : (D == 0 || P == 0 || decide (D + P > 255)) = true
  · rw [if_pos hc] at h; cases h
  · simp only [Bool.or_eq_true, beq_iff_eq, decide_eq_true_eq, not_or] at hc
    omega

/-- A successful split: the buffer was nonempty, and the `D + P` shards all
have length `ceil(n / D)`. -/
theorem rsSplit_ok_facts (c : List Nat) (D P : Nat) (shards : List (List Nat))
    (hD : 0 < D) (h : rsSplit c D P = Except.ok shards) :
    c ≠ [] ∧ shards.length = D + P ∧
      ∀ b ∈ shards, b.length = (c.length + D - 1) / D := by
  unfold rsSplit at h
  by_cases hc : (c.length == 0) = true
  · rw [if_pos hc] at h; cases h
  · rw [if_neg hc] at h
    simp only [beq_iff_eq] at hc
    injection h with h1
    have hceil : c.length ≤ D * ((c.length + D - 1) / D) := by
      have hmod := Nat.div_add_mod (c.length + D - 1) D
      have hlt : (c.length + D - 1) % D < D := Nat.mod_lt _ hD
      omega
    have hpadlen : (c ++ List.replicate
        ((D + P) * ((c.length + D - 1) / D) - c.length) 0).length
        = (D + P) * ((c.length + D - 1) / D) := by
      have hge : c.length ≤ (D + P) * ((c.length + D - 1) / D) := by
        have h2 : D * ((c.length + D - 1) / D) ≤ (D + P) * ((c.length + D - 1) / D) :=
          Nat.mul_le_mul_right _ (by omega)
        omega
      simp [List.length_replicate]
      omega
    refine ⟨fun hnil => hc (by simp [hnil]), ?_, ?_⟩
    · rw [← h1]
      simp
    · intro b hb
      rw [← h1] at hb
      simp only [List.mem_map, List.mem_range] at hb
      obtain ⟨j, hj, hbj⟩ := hb
      have hrem : (D + P) * ((c.length + D - 1) / D) - j * ((c.length + D - 1) / D)
          ≥ (c.length + D - 1) / D := by
        have h3 : (j + 1) * ((c.length + D - 1) / D)
            ≤ (D + P) * ((c.length + D - 1) / D) :=
          Nat.mul_le_mul_right _ (by omega)
        have h4 : (j + 1) * ((c.length + D - 1) / D)
            = j * ((c.length + D - 1) / D) + (c.length + D - 1) / D := by ring
        omega
      rw [← hbj]
      rw [List.length_take, List.length_drop, hpadlen]
      omega

/-- A successful encode of a consistent shard matrix: `D + P` output shards
of the same length. -/
theorem rsEncode_ok_facts (D P : Nat) (shards blocks : List (List Nat)) (sz : Nat)
    (hlen : shards.length = D + P) (hsz : 0 < sz)
    (hall : ∀ b ∈ shards, b.length = sz) (hD : 0 < D)
    (h : rsEncode D P shards = Except.ok blocks) :
    blocks.length = D + P ∧ ∀ b ∈ blocks, b.length = sz := by
  unfold rsEncode at h
  rw [if_neg (by simp [hlen])] at h
  have hhead : (shards.headD []).length = sz := by
    cases hsh : shards with
    | nil => rw [hsh] at hlen; simp at hlen; omega
    | cons a t =>
      have ha : a ∈ shards := by rw [hsh]; exact List.mem_cons_self a t
      exact hall a ha
  rw [if_neg (by
    simp only [Bool.or_eq_true, beq_iff_eq, List.any_eq_true, not_or]
    constructor
    · omega
    · intro hex
      obtain ⟨b, hb, hbl⟩ := hex
      simp only [decide_eq_true_eq] at hbl
      exact hbl (by rw [hall b hb, hhead]))] at h
  injection h with h1
  constructor
  · rw [← h1]
    simp only [List.length_append, List.length_take, List.length_map, List.length_range]
    omega
  · intro b hb
    rw [← h1] at hb
    rw [List.mem_append] at hb
    cases hb with
    | inl hb2 => exact hall b (List.mem_of_mem_take hb2)
    | inr hb2 =>
      simp only [List.mem_map, List.mem_range] at hb2
      obtain ⟨j, hj, hbj⟩ := hb2
      rw [← hbj]
      simp only [List.length_map, List.length_range]
      exact hhead

/-- Everything a successful `encodeData` guarantees: nonempty input, sane
geometry, and `D + P` shards of length `ceil(n / D) ≥ 1`. -/
theorem encodeData_ok_facts (c : List Nat) (D P : Nat) (blocks : List (List Nat))
    (h : encodeData c D P = Except.ok blocks) :
    c ≠ [] ∧ 0 < D ∧ 0 < P ∧ D + P ≤ 255 ∧ blocks.length = D + P ∧
      (∀ b ∈ blocks, b.length = (c.length + D - 1) / D) ∧
      0 < (c.length + D - 1) / D := by
  unfold encodeData at h
  cases hnew : reedsolomonNew D P with
  | some e => rw [hnew] at h; simp at h
  | none =>
    rw [hnew] at h
    dsimp only at h
    obtain ⟨hD, hP, hDP⟩ := reedsolomonNew_none D P hnew
    cases hsp : rsSplit c D P with
    | error e => rw [hsp] at h; simp at h
    | ok shards =>
      rw [hsp] at h
      dsimp only at h
      obtain ⟨hcne, hslen, hsall⟩ := rsSplit_ok_facts c D P shards hD hsp
      have hper : 0 < (c.length + D - 1) / D := by
        have hc1 : 1 ≤ c.length := List.length_pos.mpr hcne
        exact Nat.div_pos (by omega) hD
      obtain ⟨hblen, hball⟩ := rsEncode_ok_facts D P shards blocks _ hslen hper hsall hD h
      exact ⟨hcne, hD, hP, hDP, hblen, hball, hper⟩

/-- C5 (counterexample): same disagreeing-distribution input as for C3.
The entry appended to descriptor 1 is `checkSums[0]` (digest `"3"`, via its
own distribution `[2,1,3]`), not `checkSums[dist[1]-1] = checkSums[1]`
(digest `"7"`) computed from the selected distribution `[1,2,3]` as the
claim states. -/
theorem claim5_counterexample :
    (((erasureCreateFile
          [some ⟨fun _ => none⟩, some ⟨fun _ => none⟩, some ⟨fun _ => none⟩] "v" "p" "n"
          ⟨[1, 2, 3, 4], none⟩
          [⟨"rs", 2, 1, 4, [1, 2, 3], []⟩, ⟨"rs", 2, 1, 4, [2, 1, 3], []⟩,
            ⟨"rs", 2, 1, 4, [1, 2, 3], []⟩] 3
          (fun l => toString l.sum)).newEInfos.getD []).getD 1 default).Checksum
      = [⟨"n", "sha512", "3"⟩] ∧
    (buildCheckSums 3 "n"
        (pickValidErasureInfo
          [⟨"rs", 2, 1, 4, [1, 2, 3], []⟩, ⟨"rs", 2, 1, 4, [2, 1, 3], []⟩,
            ⟨"rs", 2, 1, 4, [1, 2, 3], []⟩]).Distribution
        (erasureCreateFile
          [some ⟨fun _ => none⟩, some ⟨fun _ => none⟩, some ⟨fun _ => none⟩] "v" "p" "n"
          ⟨[1, 2, 3, 4], none⟩
          [⟨"rs", 2, 1, 4, [1, 2, 3], []⟩, ⟨"rs", 2, 1, 4, [2, 1, 3], []⟩,
            ⟨"rs", 2, 1, 4, [1, 2, 3], []⟩] 3
          (fun l => toString l.sum)).hashWriters
        (fun l => toString l.sum)).getD
      ((pickValidErasureInfo
          [⟨"rs", 2, 1, 4, [1, 2, 3], []⟩, ⟨"rs", 2, 1, 4, [2, 1, 3], []⟩,
            ⟨"rs", 2, 1, 4, [1, 2, 3], []⟩]).Distribution.getD 1 0 - 1) default
      = ⟨"n", "sha512", "7"⟩ ∧
    ¬ ([(⟨"n", "sha512", "3"⟩ : checkSumInfo)]
        = ([] : List checkSumInfo) ++ [⟨"n", "sha512", "7"⟩]) := by
  decide

/-- C5 (amended): after a successful stream loop the finalizer builds
`checkSums[dist[i]-1] = {partName, "sha512", digest(finalize(dist[i]-1))}`
for every endpoint index `i` (with `dist` the **selected** distribution),
and the output vector copies each valid input descriptor with the checksum
entry indexed by that descriptor's **own** distribution appended; invalid
inputs produce empty (zero-descriptor) slots.  The two indexings coincide
when the descriptor's distribution agrees with the selected one. -/
theorem claim5_amended_finalizer (disks : List (Option StorageAPI))
    (volume path partName : String) (data : ByteStream) (eInfos : List erasureInfo)
    (writeQuorum : Nat) (digest : List Nat → String)
    (hlen : eInfos.length = disks.length)
    (hvalid : (pickValidErasureInfo eInfos).IsValid = true)
    (hN : disks.length
      = (pickValidErasureInfo eInfos).DataBlocks + (pickValidErasureInfo eInfos).ParityBlocks)
    (herr : (erasureCreateFile disks volume path partName data eInfos writeQuorum
      digest).err = none) :
    ∃ out, (erasureCreateFile disks volume path partName data eInfos writeQuorum
        digest).newEInfos = some out ∧
      out.length = disks.length ∧
      (∀ idx < disks.length,
        (buildCheckSums disks.length partName (pickValidErasureInfo eInfos).Distribution
            (erasureCreateFile disks volume path partName data eInfos writeQuorum
              digest).hashWriters digest).getD
          ((pickValidErasureInfo eInfos).Distribution.getD idx 0 - 1) default
        = ⟨partName, "sha512",
            digest ((erasureCreateFile disks volume path partName data eInfos writeQuorum
              digest).hashWriters.getD
              ((pickValidErasureInfo eInfos).Distribution.getD idx 0 - 1) [])⟩) ∧
      (∀ idx < disks.length,
        out.getD idx default
          = if (eInfos.getD idx default).IsValid then
              { eInfos.getD idx default with
                Checksum := (eInfos.getD idx default).Checksum ++
                  [(buildCheckSums disks.length partName
                      (pickValidErasureInfo eInfos).Distribution
                      (erasureCreateFile disks volume path partName data eInfos
                        writeQuorum digest).hashWriters digest).getD
                    ((eInfos.getD idx default).Distribution.getD idx 0 - 1) default] }
            else default) := by
  obtain ⟨hout, -, -, -⟩ := erasureCreateFile_success_spec disks volume path partName
    data eInfos writeQuorum digest herr
  obtain ⟨hdlen, hdval, -⟩ := valid_dist_facts _ hvalid
  refine ⟨_, hout, updateEInfos_length _ _ _, ?_, ?_⟩
  · intro idx hidx
    have hk : (pickValidErasureInfo eInfos).Distribution.getD idx 0 - 1 < disks.length := by
      have := hdval idx (by omega)
      omega
    exact buildCheckSums_getD _ _ _ _ _ _ hk idx hidx rfl
  · intro idx hidx
    exact updateEInfos_getD disks.length eInfos _ idx (by omega) hidx

/-- Witness for C5 (amended) on a concrete successful two-endpoint run. -/
theorem claim5_witness :
    ((([⟨"rs", 1, 1, 2, [1, 2], []⟩, ⟨"rs", 1, 1, 2, [1, 2], []⟩] :
        List erasureInfo).length = 2) ∧
      ((pickValidErasureInfo [⟨"rs", 1, 1, 2, [1, 2], []⟩,
        ⟨"rs", 1, 1, 2, [1, 2], []⟩]).IsValid = true) ∧
      ((erasureCreateFile [some ⟨fun _ => none⟩, some ⟨fun _ => none⟩] "w" "q" "m"
        ⟨[5, 9], none⟩ [⟨"rs", 1, 1, 2, [1, 2], []⟩, ⟨"rs", 1, 1, 2, [1, 2], []⟩] 2
        (fun l => toString l.sum)).err = none)) ∧
    ∃ out, (erasureCreateFile [some ⟨fun _ => none⟩, some ⟨fun _ => none⟩] "w" "q" "m"
        ⟨[5, 9], none⟩ [⟨"rs", 1, 1, 2, [1, 2], []⟩, ⟨"rs", 1, 1, 2, [1, 2], []⟩] 2
        (fun l => toString l.sum)).newEInfos = some out ∧
      out.length = 2 ∧
      (∀ idx < 2,
        (buildCheckSums 2 "m"
            (pickValidErasureInfo [⟨"rs", 1, 1, 2, [1, 2], []⟩,
              ⟨"rs", 1, 1, 2, [1, 2], []⟩]).Distribution
            (erasureCreateFile [some ⟨fun _ => none⟩, some ⟨fun _ => none⟩] "w" "q" "m"
              ⟨[5, 9], none⟩ [⟨"rs", 1, 1, 2, [1, 2], []⟩, ⟨"rs", 1, 1, 2, [1, 2], []⟩] 2
              (fun l => toString l.sum)).hashWriters (fun l => toString l.sum)).getD
          ((pickValidErasureInfo [⟨"rs", 1, 1, 2, [1, 2], []⟩,
            ⟨"rs", 1, 1, 2, [1, 2], []⟩]).Distribution.getD idx 0 - 1) default
        = ⟨"m", "sha512",
            (fun l => toString l.sum)
              ((erasureCreateFile [some ⟨fun _ => none⟩, some ⟨fun _ => none⟩] "w" "q" "m"
                ⟨[5, 9], none⟩ [⟨"rs", 1, 1, 2, [1, 2], []⟩, ⟨"rs", 1, 1, 2, [1, 2], []⟩] 2
                (fun l => toString l.sum)).hashWriters.getD
                ((pickValidErasureInfo [⟨"rs", 1, 1, 2, [1, 2], []⟩,
                  ⟨"rs", 1, 1, 2, [1, 2], []⟩]).Distribution.getD idx 0 - 1) [])⟩) ∧
      (∀ idx < 2,
        out.getD idx default
          = if (([⟨"rs", 1, 1, 2, [1, 2], []⟩, ⟨"rs", 1, 1, 2, [1, 2], []⟩] :
              List erasureInfo).getD idx default).IsValid then
              { ([⟨"rs", 1, 1, 2, [1, 2], []⟩, ⟨"rs", 1, 1, 2, [1, 2], []⟩] :
                  List erasureInfo).getD idx default with
                Checksum := (([⟨"rs", 1, 1, 2, [1, 2], []⟩, ⟨"rs", 1, 1, 2, [1, 2], []⟩] :
                    List erasureInfo).getD idx default).Checksum ++
                  [(buildCheckSums 2 "m"
                      (pickValidErasureInfo [⟨"rs", 1, 1, 2, [1, 2], []⟩,
                        ⟨"rs", 1, 1, 2, [1, 2], []⟩]).Distribution
                      (erasureCreateFile [some ⟨fun _ => none⟩, some ⟨fun _ => none⟩]
                        "w" "q" "m" ⟨[5, 9], none⟩
                        [⟨"rs", 1, 1, 2, [1, 2], []⟩, ⟨"rs", 1, 1, 2, [1, 2], []⟩] 2
                        (fun l => toString l.sum)).hashWriters
                      (fun l => toString l.sum)).getD
                    ((([⟨"rs", 1, 1, 2, [1, 2], []⟩, ⟨"rs", 1, 1, 2, [1, 2], []⟩] :
                      List erasureInfo).getD idx
                      default).Distribution.getD idx 0 - 1) default] }
            else default) :=
  ⟨⟨by decide, by decide, by decide⟩,
    claim5_amended_finalizer [some ⟨fun _ => none⟩, some ⟨fun _ => none⟩] "w" "q" "m"
      ⟨[5, 9], none⟩ [⟨"rs", 1, 1, 2, [1, 2], []⟩, ⟨"rs", 1, 1, 2, [1, 2], []⟩] 2
      (fun l => toString l.sum) (by decide) (by decide) (by decide) (by decide)⟩

/-! ### Stripe counting -/

/-- The endpoint states returned by `erasureCreateFile` are the loop's
final states (error or not — appends already made persist). -/
theorem erasureCreateFile_diskStates (disks : List (Option StorageAPI))
    (volume path partName : String) (data : ByteStream) (eInfos : List erasureInfo)
    (writeQuorum : Nat) (digest : List Nat → String) :
    (erasureCreateFile disks volume path partName data eInfos writeQuorum
        digest).diskStates
      = (erasureLoop disks volume path (pickValidErasureInfo eInfos) writeQuorum
          (data.bytes.length + 2) data (newHashWriters disks.length)
          (List.replicate disks.length default) 0).states := by
  unfold erasureCreateFile
  cases hr : (erasureLoop disks volume path (pickValidErasureInfo eInfos) writeQuorum
      (data.bytes.length + 2) data (newHashWriters disks.length)
      (List.replicate disks.length default) 0).err with
  | some er => simp [hr]
  | none => simp [hr]

/-- On a zero-byte stream with a positive block size, the loop performs
exactly the one empty-stripe fan-out. -/
theorem erasureLoop_empty_states (disks : List (Option StorageAPI))
    (volume path : String) (e : erasureInfo) (Q : Nat)
    (hw : List (List Nat)) (sts : List DiskState) (hB : 0 < e.BlockSize) :
    (erasureLoop disks volume path e Q
        ((⟨[], none⟩ : ByteStream).bytes.length + 2) ⟨[], none⟩ hw sts 0).states
      = (appendFile disks volume path (List.replicate disks.length [])
          e.Distribution hw sts Q).states := by
  show (erasureLoop disks volume path e Q (1 + 1) ⟨[], none⟩ hw sts 0).states = _
  rw [erasureLoop]
  have hrf : readFull e.BlockSize ⟨[], none⟩ = (ReadResult.eof, ⟨[], none⟩) := by
    unfold readFull
    rw [if_neg (by simp; omega), if_neg (by simp; omega), if_pos (by simp)]
  rw [hrf]
  dsimp only
  rw [if_pos (show ((0 : Nat) == 0) = true from rfl)]
  cases hre : (appendFile disks volume path (List.replicate disks.length [])
      e.Distribution hw sts Q).err with
  | some er => dsimp only
  | none => dsimp only

/-- Through the whole read loop on a clean stream, the number of appends
recorded on each present endpoint grows by the number of stripes — one per
full or short block, or a single empty stripe when the stream is empty and
nothing was consumed before — and an absent endpoint's state is untouched
(on runs that return without error). -/
theorem erasureLoop_calls_count (disks : List (Option StorageAPI))
    (volume path : String) (e : erasureInfo) (Q : Nat) (i : Nat)
    (hi : i < disks.length) :
    ∀ fuel s hw sts size,
      sts.length = disks.length →
      s.readErr = none →
      (erasureLoop disks volume path e Q fuel s hw sts size).err = none →
      (∀ d, disks.getD i none = some d →
        ((erasureLoop disks volume path e Q fuel s hw sts size).states.getD i
            default).calls.length
          = (sts.getD i default).calls.length +
            (if s.bytes.length = 0 then (if size = 0 then 1 else 0)
             else (s.bytes.length + e.BlockSize - 1) / e.BlockSize)) ∧
      (disks.getD i none = none →
        (erasureLoop disks volume path e Q fuel s hw sts size).states.getD i default
          = sts.getD i default) := by
  intro fuel
  induction fuel with
  | zero =>
    intro s hw sts size _ _ herr
    exact absurd herr (by simp [erasureLoop])
  | succ n ih =>
    intro s hw sts size hsl hrerr herr
    rcases hrf : readFull e.BlockSize s with ⟨rr, s2⟩
    rw [erasureLoop, hrf] at herr ⊢
    cases rr with
    | eof =>
      obtain ⟨hL, -, hB⟩ := readFull_eof_inv _ _ _ hrf
      dsimp only at herr ⊢
      split at herr
      · rename_i hsz
        rw [if_pos hsz]
        cases hre : (appendFile disks volume path (List.replicate disks.length [])
            e.Distribution hw sts Q).err with
        | some er => rw [hre] at herr; exact absurd herr (by simp)
        | none =>
          dsimp only
          constructor
          · intro d hd
            rw [appendFile_states_getD_present disks volume path _ _ hw sts Q i d hi
              hsl hd]
            have hsz0 : size = 0 := by simpa using hsz
            rw [if_pos hL, if_pos hsz0]
            simp
          · intro hd
            exact appendFile_states_getD_absent disks volume path _ _ hw sts Q i hi
              hsl hd
      · rename_i hsz
        rw [if_neg hsz]
        dsimp only
        have hsz0 : ¬ size = 0 := by simpa using hsz
        constructor
        · intro d hd
          rw [if_pos hL, if_neg hsz0]
          omega
        · intro hd
          rfl
    | fail c =>
      dsimp only at herr
      exact absurd herr (by simp)
    | full chunk =>
      dsimp only at herr ⊢
      cases hec : encodeData chunk e.DataBlocks e.ParityBlocks with
      | error er =>
        rw [hec] at herr
        dsimp only at herr
        exact absurd herr (by simp)
      | ok blocks =>
        rw [hec] at herr
        dsimp only at herr ⊢
        obtain ⟨hcne, hD, hP, hDP, hblen, hball, hper⟩ := encodeData_ok_facts _ _ _ _ hec
        rcases readFull_full_inv _ _ _ _ hrf with ⟨hB0, hchunk, -⟩ |
          ⟨hB, hBL, hchunk, hs2⟩
        · exact absurd hchunk hcne
        · cases hre : (appendFile disks volume path blocks e.Distribution hw sts Q).err
            with
          | some er => rw [hre] at herr; exact absurd herr (by simp)
          | none =>
            rw [hre] at herr
            dsimp only at herr ⊢
            have hsl2 : (appendFile disks volume path blocks e.Distribution hw sts
                Q).states.length = disks.length := by
              rw [appendFile_states]
              simp [hsl]
            have hrerr2 : s2.readErr = none := by rw [hs2]; exact hrerr
            obtain ⟨ihp, iha⟩ := ih s2 _ _ _ hsl2 hrerr2 herr
            have hchlen : chunk.length = e.BlockSize := by
              rw [hchunk, List.length_take]
              omega
            have hlen2 : s2.bytes.length = s.bytes.length - e.BlockSize := by
              rw [hs2]
              simp
            constructor
            · intro d hd
              rw [ihp d hd, appendFile_states_getD_present disks volume path _ _ hw sts
                Q i d hi hsl hd]
              simp only [List.length_append, List.length_cons, List.length_nil]
              rw [if_neg (show ¬ s.bytes.length = 0 by omega), hlen2]
              by_cases hLB : s.bytes.length - e.BlockSize = 0
              · rw [if_pos hLB, if_neg (show ¬ size + chunk.length = 0 by omega)]
                have h1 : (s.bytes.length + e.BlockSize - 1) / e.BlockSize = 1 := by
                  have hLeq : s.bytes.length = e.BlockSize := by omega
                  rw [hLeq]
                  have h2 : e.BlockSize + e.BlockSize - 1
                      = (e.BlockSize - 1) + e.BlockSize := by omega
                  rw [h2, Nat.add_div_right _ hB, Nat.div_eq_of_lt (by omega)]
                omega
              · rw [if_neg hLB]
                have h1 : s.bytes.length - e.BlockSize + e.BlockSize - 1
                    = s.bytes.length - 1 := by omega
                have h2 : s.bytes.length + e.BlockSize - 1
                    = (s.bytes.length - 1) + e.BlockSize := by omega
                rw [h1, h2, Nat.add_div_right _ hB]
                omega
            · intro hd
              rw [iha hd]
              exact appendFile_states_getD_absent disks volume path _ _ hw sts Q i hi
                hsl hd
    | short chunk =>
      dsimp only at herr ⊢
      cases hec : encodeData chunk e.DataBlocks e.ParityBlocks with
      | error er =>
        rw [hec] at herr
        dsimp only at herr
        exact absurd herr (by simp)
      | ok blocks =>
        rw [hec] at herr
        dsimp only at herr ⊢
        obtain ⟨hcne, hD, hP, hDP, hblen, hball, hper⟩ := encodeData_ok_facts _ _ _ _ hec
        obtain ⟨hL, hLB, hchunk, hs2, -⟩ := readFull_short_inv _ _ _ _ hrf
        cases hre : (appendFile disks volume path blocks e.Distribution hw sts Q).err
          with
        | some er => rw [hre] at herr; exact absurd herr (by simp)
        | none =>
          rw [hre] at herr
          dsimp only at herr ⊢
          have hsl2 : (appendFile disks volume path blocks e.Distribution hw sts
              Q).states.length = disks.length := by
            rw [appendFile_states]
            simp [hsl]
          have hrerr2 : s2.readErr = none := by rw [hs2]
          obtain ⟨ihp, iha⟩ := ih s2 _ _ _ hsl2 hrerr2 herr
          have hchlen : chunk.length = s.bytes.length := by rw [hchunk]
          have hlen2 : s2.bytes.length = 0 := by rw [hs2]; rfl
          constructor
          · intro d hd
            rw [ihp d hd, appendFile_states_getD_present disks volume path _ _ hw sts
              Q i d hi hsl hd]
            simp only [List.length_append, List.length_cons, List.length_nil]
            rw [hlen2, if_pos rfl, if_neg (show ¬ size + chunk.length = 0 by omega),
              if_neg (show ¬ s.bytes.length = 0 by omega)]
            have h1 : (s.bytes.length + e.BlockSize - 1) / e.BlockSize = 1 := by
              have h2 : s.bytes.length + e.BlockSize - 1
                  = (s.bytes.length - 1) + e.BlockSize := by omega
              rw [h2, Nat.add_div_right _ (by omega), Nat.div_eq_of_lt (by omega)]
            omega
          · intro hd
            rw [iha hd]
            exact appendFile_states_getD_absent disks volume path _ _ hw sts Q i hi
              hsl hd

/-- The Go zero value of `DiskState` records no calls. -/
theorem default_diskState_calls : (default : DiskState).calls = [] := rfl

/-- C6: (a) writing a zero-byte stream performs exactly one zero-length
append per present endpoint (and none on absent ones); (b) a write whose
final read was a short block performs no additional zero-byte stripe after
that short block: on success each present endpoint records exactly
`ceil(len / B)` appends, the last being the short block's shard. -/
theorem claim6_empty_object_and_trailing (disks : List (Option StorageAPI))
    (volume path partName : String) (eInfos : List erasureInfo) (writeQuorum : Nat)
    (digest : List Nat → String)
    (hvalid : (pickValidErasureInfo eInfos).IsValid = true) :
    (∀ i < disks.length,
      (∀ d, disks.getD i none = some d →
        ((erasureCreateFile disks volume path partName ⟨[], none⟩ eInfos writeQuorum
            digest).diskStates.getD i default).calls = [[]]) ∧
      (disks.getD i none = none →
        ((erasureCreateFile disks volume path partName ⟨[], none⟩ eInfos writeQuorum
            digest).diskStates.getD i default).calls = [])) ∧
    (∀ bytes : List Nat, bytes ≠ [] →
      ¬ (pickValidErasureInfo eInfos).BlockSize ∣ bytes.length →
      (erasureCreateFile disks volume path partName ⟨bytes, none⟩ eInfos writeQuorum
        digest).err = none →
      ∀ i < disks.length, ∀ d, disks.getD i none = some d →
        ((erasureCreateFile disks volume path partName ⟨bytes, none⟩ eInfos writeQuorum
            digest).diskStates.getD i default).calls.length
          = (bytes.length + (pickValidErasureInfo eInfos).BlockSize - 1)
            / (pickValidErasureInfo eInfos).BlockSize) := by
  have hB : 0 < (pickValidErasureInfo eInfos).BlockSize := by
    unfold erasureInfo.IsValid at hvalid
    simp only [Bool.and_eq_true, decide_eq_true_eq] at hvalid
    exact hvalid.1.2
  constructor
  · intro i hi
    rw [erasureCreateFile_diskStates,
      erasureLoop_empty_states disks volume path (pickValidErasureInfo eInfos)
        writeQuorum (newHashWriters disks.length) (List.replicate disks.length default) hB]
    constructor
    · intro d hd
      rw [appendFile_states_getD_present disks volume path _ _ _ _ _ i d hi
        (by simp) hd]
      have hsh : (List.replicate disks.length ([] : List Nat)).getD
          ((pickValidErasureInfo eInfos).Distribution.getD i 0 - 1) [] = [] := by
        by_cases hk : (pickValidErasureInfo eInfos).Distribution.getD i 0 - 1
            < disks.length
        · exact getD_replicate _ _ _ _ hk
        · rw [List.getD_eq_default]
          rw [List.length_replicate]
          omega
      rw [hsh, getD_replicate _ _ _ _ hi]
      rfl
    · intro hd
      rw [appendFile_states_getD_absent disks volume path _ _ _ _ _ i hi (by simp) hd,
        getD_replicate _ _ _ _ hi]
      rfl
  · intro bytes hne hndvd herr i hi d hd
    obtain ⟨-, -, -, hloopnone⟩ := erasureCreateFile_success_spec disks volume path
      partName ⟨bytes, none⟩ eInfos writeQuorum digest herr
    rw [erasureCreateFile_diskStates]
    obtain ⟨ihp, -⟩ := erasureLoop_calls_count disks volume path
      (pickValidErasureInfo eInfos) writeQuorum i hi
      ((⟨bytes, none⟩ : ByteStream).bytes.length + 2) ⟨bytes, none⟩
      (newHashWriters disks.length) (List.replicate disks.length default) 0
      (by simp) rfl hloopnone
    rw [ihp d hd, getD_replicate _ _ _ _ hi]
    rw [if_neg (show ¬ (⟨bytes, none⟩ : ByteStream).bytes.length = 0 by
      simpa using fun hc => hne (List.length_eq_zero.mp hc))]
    simp [default_diskState_calls]

/-- Witness for C6 at a concrete input: one present and one absent
endpoint, zero-byte stream. -/
theorem claim6_witness :
    ((pickValidErasureInfo [⟨"rs", 1, 1, 4, [1, 2], []⟩]).IsValid = true) ∧
    ((erasureCreateFile [some ⟨fun _ => none⟩, none] "v" "p" "n" ⟨[], none⟩
        [⟨"rs", 1, 1, 4, [1, 2], []⟩] 1
        (fun _ => "")).diskStates.getD 0 default).calls = [[]] ∧
    ((erasureCreateFile [some ⟨fun _ => none⟩, none] "v" "p" "n" ⟨[], none⟩
        [⟨"rs", 1, 1, 4, [1, 2], []⟩] 1
        (fun _ => "")).diskStates.getD 1 default).calls = [] :=
  ⟨by decide,
    ((claim6_empty_object_and_trailing [some ⟨fun _ => none⟩, none] "v" "p" "n"
      [⟨"rs", 1, 1, 4, [1, 2], []⟩] 1 (fun _ => "") (by decide)).1 0
      (by decide)).1 ⟨fun _ => none⟩ rfl,
    ((claim6_empty_object_and_trailing [some ⟨fun _ => none⟩, none] "v" "p" "n"
      [⟨"rs", 1, 1, 4, [1, 2], []⟩] 1 (fun _ => "") (by decide)).1 1
      (by decide)).2 rfl⟩

/-! ### Forward evaluation of the loop, one stripe at a time -/

/-- `rsSplit` succeeds on any nonempty buffer. -/
theorem rsSplit_ok_of (c : List Nat) (D P : Nat) (hc : c ≠ []) :
    ∃ shards, rsSplit c D P = Except.ok shards := by
  unfold rsSplit
  rw [if_neg (by simp [hc])]
  exact ⟨_, rfl⟩

/-- `rsEncode` succeeds on a consistent nonempty shard matrix. -/
theorem rsEncode_ok_of (D P : Nat) (shards : List (List Nat)) (sz : Nat)
    (hlen : shards.length = D + P) (hsz : 0 < sz)
    (hall : ∀ b ∈ shards, b.length = sz) (hD : 0 < D) :
    ∃ blocks, rsEncode D P shards = Except.ok blocks := by
  unfold rsEncode
  rw [if_neg (by simp [hlen])]
  have hhead : (shards.headD []).length = sz := by
    cases hsh : shards with
    | nil => rw [hsh] at hlen; simp at hlen; omega
    | cons a t =>
      have ha : a ∈ shards := by rw [hsh]; exact List.mem_cons_self a t
      exact hall a ha
  rw [if_neg (by
    simp only [Bool.or_eq_true, beq_iff_eq, List.any_eq_true, not_or]
    constructor
    · omega
    · intro hex
      obtain ⟨b, hb, hbl⟩ := hex
      simp only [decide_eq_true_eq] at hbl
      exact hbl (by rw [hall b hb, hhead]))]
  exact ⟨_, rfl⟩

/-- `encodeData` succeeds on a nonempty buffer with sane geometry. -/
theorem encodeData_ok_of (c : List Nat) (D P : Nat) (hD : 0 < D) (hP : 0 < P)
    (hDP : D + P ≤ 255) (hc : c ≠ []) :
    ∃ blocks, encodeData c D P = Except.ok blocks := by
  unfold encodeData
  have hnew : reedsolomonNew D P = none := by
    unfold reedsolomonNew
    rw [if_neg (by simp; omega)]
  rw [hnew]
  obtain ⟨shards, hsp⟩ := rsSplit_ok_of c D P hc
  rw [hsp]
  obtain ⟨hcne, hslen, hsall⟩ := rsSplit_ok_facts c D P shards hD hsp
  have hper : 0 < (c.length + D - 1) / D := by
    have hc1 : 1 ≤ c.length := List.length_pos.mpr hcne
    exact Nat.div_pos (by omega) hD
  exact rsEncode_ok_of D P shards _ hslen hper hsall hD

/-- If every endpoint is present and its next append succeeds, the stripe
meets any quorum up to `N`. -/
theorem appendFile_success_of_all (disks : List (Option StorageAPI))
    (volume path : String) (enBlocks : List (List Nat)) (dist : List Nat)
    (hw : List (List Nat)) (sts : List DiskState) (Q : Nat)
    (hall : ∀ i < disks.length, diskCallErr disks sts i = none)
    (hQ : Q ≤ disks.length) :
    (appendFile disks volume path enBlocks dist hw sts Q).err = none := by
  rw [appendFile_err, if_pos ?_]
  unfold isQuorum
  have hcnt : ((List.range disks.length).map (diskCallErr disks sts)).countP
      (fun e => e.isSome) = 0 := by
    rw [List.countP_eq_zero]
    intro a ha
    rw [List.mem_map] at ha
    obtain ⟨j, hj, hja⟩ := ha
    rw [List.mem_range] at hj
    rw [← hja, hall j hj]
    simp
  rw [hcnt]
  simp only [List.length_map, List.length_range, Nat.sub_zero, decide_eq_true_eq]
  exact hQ

/-- One full-block iteration of the loop, written forwards. -/
theorem erasureLoop_step_full (disks : List (Option StorageAPI)) (volume path : String)
    (e : erasureInfo) (Q fuel : Nat) (s : ByteStream) (hw : List (List Nat))
    (sts : List DiskState) (size : Nat) (blocks : List (List Nat))
    (hB : 0 < e.BlockSize) (hBL : e.BlockSize ≤ s.bytes.length)
    (hec : encodeData (s.bytes.take e.BlockSize) e.DataBlocks e.ParityBlocks
      = Except.ok blocks)
    (hq : (appendFile disks volume path blocks e.Distribution hw sts Q).err = none) :
    erasureLoop disks volume path e Q (fuel + 1) s hw sts size
      = erasureLoop disks volume path e Q fuel ⟨s.bytes.drop e.BlockSize, s.readErr⟩
          (appendFile disks volume path blocks e.Distribution hw sts Q).hashWriters
          (appendFile disks volume path blocks e.Distribution hw sts Q).states
          (size + (s.bytes.take e.BlockSize).length) := by
  rw [erasureLoop]
  have hrf : readFull e.BlockSize s
      = (ReadResult.full (s.bytes.take e.BlockSize),
          ⟨s.bytes.drop e.BlockSize, s.readErr⟩) := by
    unfold readFull
    rw [if_neg (by simp; omega), if_pos hBL]
  rw [hrf]
  dsimp only
  rw [hec]
  dsimp only
  rw [hq]

/-- One short-final-block iteration of the loop, written forwards. -/
theorem erasureLoop_step_short (disks : List (Option StorageAPI)) (volume path : String)
    (e : erasureInfo) (Q fuel : Nat) (s : ByteStream) (hw : List (List Nat))
    (sts : List DiskState) (size : Nat) (blocks : List (List Nat))
    (hL : 0 < s.bytes.length) (hLB : s.bytes.length < e.BlockSize)
    (hre : s.readErr = none)
    (hec : encodeData s.bytes e.DataBlocks e.ParityBlocks = Except.ok blocks)
    (hq : (appendFile disks volume path blocks e.Distribution hw sts Q).err = none) :
    erasureLoop disks volume path e Q (fuel + 1) s hw sts size
      = erasureLoop disks volume path e Q fuel ⟨[], none⟩
          (appendFile disks volume path blocks e.Distribution hw sts Q).hashWriters
          (appendFile disks volume path blocks e.Distribution hw sts Q).states
          (size + s.bytes.length) := by
  rw [erasureLoop]
  have hrf : readFull e.BlockSize s = (ReadResult.short s.bytes, ⟨[], none⟩) := by
    unfold readFull
    rw [if_neg (show ¬ ((e.BlockSize == 0) = true) by simp only [beq_iff_eq]; omega),
      if_neg (by omega),
      if_neg (show ¬ ((s.bytes.length == 0) = true) by simp only [beq_iff_eq]; omega),
      hre]
  rw [hrf]
  dsimp only
  rw [hec]
  dsimp only
  rw [hq]

/-- The terminal EOF iteration after at least one byte was consumed. -/
theorem erasureLoop_step_eof (disks : List (Option StorageAPI)) (volume path : String)
    (e : erasureInfo) (Q fuel : Nat) (s : ByteStream) (hw : List (List Nat))
    (sts : List DiskState) (size : Nat)
    (hL : s.bytes.length = 0) (hre : s.readErr = none) (hB : 0 < e.BlockSize)
    (hsz : size ≠ 0) :
    erasureLoop disks volume path e Q (fuel + 1) s hw sts size
      = ⟨none, hw, sts, size⟩ := by
  rw [erasureLoop]
  have hrf : readFull e.BlockSize s = (ReadResult.eof, s) := by
    unfold readFull
    rw [if_neg (by simp; omega), if_neg (by omega), if_pos (by simp [hL]), hre]
  rw [hrf]
  dsimp only
  rw [if_neg (by simpa using hsz)]

/-- Membership of an in-range `getD`. -/
theorem getD_mem {α : Type} (l : List α) (k : Nat) (d : α) (hk : k < l.length) :
    l.getD k d ∈ l := by
  rw [List.getD_eq_getElem _ _ hk]
  exact List.getElem_mem hk

/-- The error component of `erasureCreateFile` is exactly the loop's error. -/
theorem erasureCreateFile_err_eq (disks : List (Option StorageAPI))
    (volume path partName : String) (data : ByteStream) (eInfos : List erasureInfo)
    (writeQuorum : Nat) (digest : List Nat → String) :
    (erasureCreateFile disks volume path partName data eInfos writeQuorum digest).err
      = (erasureLoop disks volume path (pickValidErasureInfo eInfos) writeQuorum
          (data.bytes.length + 2) data (newHashWriters disks.length)
          (List.replicate disks.length default) 0).err := by
  unfold erasureCreateFile
  cases hr : (erasureLoop disks volume path (pickValidErasureInfo eInfos) writeQuorum
      (data.bytes.length + 2) data (newHashWriters disks.length)
      (List.replicate disks.length default) 0).err with
  | some er => simp [hr]
  | none => simp [hr]

/-- On a successful loop, `erasureCreateFile` reports the loop's byte count. -/
theorem erasureCreateFile_size_eq (disks : List (Option StorageAPI))
    (volume path partName : String) (data : ByteStream) (eInfos : List erasureInfo)
    (writeQuorum : Nat) (digest : List Nat → String)
    (h : (erasureLoop disks volume path (pickValidErasureInfo eInfos) writeQuorum
        (data.bytes.length + 2) data (newHashWriters disks.length)
        (List.replicate disks.length default) 0).err = none) :
    (erasureCreateFile disks volume path partName data eInfos writeQuorum digest).size
      = (erasureLoop disks volume path (pickValidErasureInfo eInfos) writeQuorum
          (data.bytes.length + 2) data (newHashWriters disks.length)
          (List.replicate disks.length default) 0).size := by
  unfold erasureCreateFile
  simp [h]

/-- C8: with geometry `D = 4, P = 2, B = 1024`, six present endpoints that
always succeed and `writeQuorum = 5`, writing any 2560-byte stream succeeds
with `totalBytes = 2560` and performs exactly 3 stripes (block sizes 1024,
1024, 512): every endpoint records exactly three appends of shard lengths
256, 256 and 128 — `ceil(n / D)` for each stripe's `n`. -/
theorem claim8_scenario_b (bytes : List Nat) (digest : List Nat → String)
    (hlen : bytes.length = 2560) :
    (erasureCreateFile [some ⟨fun _ => none⟩, some ⟨fun _ => none⟩, some ⟨fun _ => none⟩, some ⟨fun _ => none⟩, some ⟨fun _ => none⟩, some ⟨fun _ => none⟩] "v" "p" "n" ⟨bytes, none⟩ (List.replicate 6 (⟨"rs", 4, 2, 1024, [1, 2, 3, 4, 5, 6], []⟩ : erasureInfo)) 5 digest).err = none ∧
    (erasureCreateFile [some ⟨fun _ => none⟩, some ⟨fun _ => none⟩, some ⟨fun _ => none⟩, some ⟨fun _ => none⟩, some ⟨fun _ => none⟩, some ⟨fun _ => none⟩] "v" "p" "n" ⟨bytes, none⟩ (List.replicate 6 (⟨"rs", 4, 2, 1024, [1, 2, 3, 4, 5, 6], []⟩ : erasureInfo)) 5 digest).size = 2560 ∧
    ∀ i < 6, (((erasureCreateFile [some ⟨fun _ => none⟩, some ⟨fun _ => none⟩, some ⟨fun _ => none⟩, some ⟨fun _ => none⟩, some ⟨fun _ => none⟩, some ⟨fun _ => none⟩] "v" "p" "n" ⟨bytes, none⟩ (List.replicate 6 (⟨"rs", 4, 2, 1024, [1, 2, 3, 4, 5, 6], []⟩ : erasureInfo)) 5 digest).diskStates.getD i default).calls).map List.length
      = [256, 256, 128] := by
  have hpick : pickValidErasureInfo (List.replicate 6 (⟨"rs", 4, 2, 1024, [1, 2, 3, 4, 5, 6], []⟩ : erasureInfo)) = (⟨"rs", 4, 2, 1024, [1, 2, 3, 4, 5, 6], []⟩ : erasureInfo) := by decide
  have hc1len : (bytes.take 1024).length = 1024 := by
    rw [List.length_take]; omega
  have hc2len : ((bytes.drop 1024).take 1024).length = 1024 := by
    rw [List.length_take, List.length_drop]; omega
  have hc3len : ((bytes.drop 1024).drop 1024).length = 512 := by
    rw [List.length_drop, List.length_drop]; omega
  obtain ⟨b1, hec1⟩ := encodeData_ok_of (bytes.take 1024) 4 2 (by norm_num)
    (by norm_num) (by norm_num) (by intro hc; rw [hc] at hc1len; simp at hc1len)
  obtain ⟨b2, hec2⟩ := encodeData_ok_of ((bytes.drop 1024).take 1024) 4 2 (by norm_num)
    (by norm_num) (by norm_num) (by intro hc; rw [hc] at hc2len; simp at hc2len)
  obtain ⟨b3, hec3⟩ := encodeData_ok_of ((bytes.drop 1024).drop 1024) 4 2 (by norm_num)
    (by norm_num) (by norm_num) (by intro hc; rw [hc] at hc3len; simp at hc3len)
  obtain ⟨-, -, -, -, hblen1, hball1, -⟩ := encodeData_ok_facts _ _ _ _ hec1
  obtain ⟨-, -, -, -, hblen2, hball2, -⟩ := encodeData_ok_facts _ _ _ _ hec2
  obtain ⟨-, -, -, -, hblen3, hball3, -⟩ := encodeData_ok_facts _ _ _ _ hec3
  have hball1n : ∀ b ∈ b1, b.length = 256 := by
    intro b hb; rw [hball1 b hb, hc1len]
  have hball2n : ∀ b ∈ b2, b.length = 256 := by
    intro b hb; rw [hball2 b hb, hc2len]
  have hball3n : ∀ b ∈ b3, b.length = 128 := by
    intro b hb; rw [hball3 b hb, hc3len]
  have hallcall : ∀ (sts : List DiskState) (i : Nat), i < 6 →
      diskCallErr [some ⟨fun _ => none⟩, some ⟨fun _ => none⟩, some ⟨fun _ => none⟩, some ⟨fun _ => none⟩, some ⟨fun _ => none⟩, some ⟨fun _ => none⟩] sts i = none := by
    intro sts i hi
    unfold diskCallErr
    interval_cases i <;> rfl
  have hQ6 : (5 : Nat) ≤ ([some ⟨fun _ => none⟩, some ⟨fun _ => none⟩, some ⟨fun _ => none⟩, some ⟨fun _ => none⟩, some ⟨fun _ => none⟩, some ⟨fun _ => none⟩] : List (Option StorageAPI)).length := by decide
  have hq1 : (appendFile [some ⟨fun _ => none⟩, some ⟨fun _ => none⟩, some ⟨fun _ => none⟩, some ⟨fun _ => none⟩, some ⟨fun _ => none⟩, some ⟨fun _ => none⟩] "v" "p" b1 [1, 2, 3, 4, 5, 6] (newHashWriters 6) (List.replicate 6 default) 5).err = none :=
    appendFile_success_of_all _ _ _ _ _ _ _ _ (fun i hi => hallcall _ i hi) hQ6
  have hq2 : (appendFile [some ⟨fun _ => none⟩, some ⟨fun _ => none⟩, some ⟨fun _ => none⟩, some ⟨fun _ => none⟩, some ⟨fun _ => none⟩, some ⟨fun _ => none⟩] "v" "p" b2 [1, 2, 3, 4, 5, 6] (appendFile [some ⟨fun _ => none⟩, some ⟨fun _ => none⟩, some ⟨fun _ => none⟩, some ⟨fun _ => none⟩, some ⟨fun _ => none⟩, some ⟨fun _ => none⟩] "v" "p" b1 [1, 2, 3, 4, 5, 6] (newHashWriters 6) (List.replicate 6 default) 5).hashWriters (appendFile [some ⟨fun _ => none⟩, some ⟨fun _ => none⟩, some ⟨fun _ => none⟩, some ⟨fun _ => none⟩, some ⟨fun _ => none⟩, some ⟨fun _ => none⟩] "v" "p" b1 [1, 2, 3, 4, 5, 6] (newHashWriters 6) (List.replicate 6 default) 5).states 5).err = none :=
    appendFile_success_of_all _ _ _ _ _ _ _ _ (fun i hi => hallcall _ i hi) hQ6
  have hq3 : (appendFile [some ⟨fun _ => none⟩, some ⟨fun _ => none⟩, some ⟨fun _ => none⟩, some ⟨fun _ => none⟩, some ⟨fun _ => none⟩, some ⟨fun _ => none⟩] "v" "p" b3 [1, 2, 3, 4, 5, 6] (appendFile [some ⟨fun _ => none⟩, some ⟨fun _ => none⟩, some ⟨fun _ => none⟩, some ⟨fun _ => none⟩, some ⟨fun _ => none⟩, some ⟨fun _ => none⟩] "v" "p" b2 [1, 2, 3, 4, 5, 6] (appendFile [some ⟨fun _ => none⟩, some ⟨fun _ => none⟩, some ⟨fun _ => none⟩, some ⟨fun _ => none⟩, some ⟨fun _ => none⟩, some ⟨fun _ => none⟩] "v" "p" b1 [1, 2, 3, 4, 5, 6] (newHashWriters 6) (List.replicate 6 default) 5).hashWriters (appendFile [some ⟨fun _ => none⟩, some ⟨fun _ => none⟩, some ⟨fun _ => none⟩, some ⟨fun _ => none⟩, some ⟨fun _ => none⟩, some ⟨fun _ => none⟩] "v" "p" b1 [1, 2, 3, 4, 5, 6] (newHashWriters 6) (List.replicate 6 default) 5).states 5).hashWriters (appendFile [some ⟨fun _ => none⟩, some ⟨fun _ => none⟩, some ⟨fun _ => none⟩, some ⟨fun _ => none⟩, some ⟨fun _ => none⟩, some ⟨fun _ => none⟩] "v" "p" b2 [1, 2, 3, 4, 5, 6] (appendFile [some ⟨fun _ => none⟩, some ⟨fun _ => none⟩, some ⟨fun _ => none⟩, some ⟨fun _ => none⟩, some ⟨fun _ => none⟩, some ⟨fun _ => none⟩] "v" "p" b1 [1, 2, 3, 4, 5, 6] (newHashWriters 6) (List.replicate 6 default) 5).hashWriters (appendFile [some ⟨fun _ => none⟩, some ⟨fun _ => none⟩, some ⟨fun _ => none⟩, some ⟨fun _ => none⟩, some ⟨fun _ => none⟩, some ⟨fun _ => none⟩] "v" "p" b1 [1, 2, 3, 4, 5, 6] (newHashWriters 6) (List.replicate 6 default) 5).states 5).states 5).err = none :=
    appendFile_success_of_all _ _ _ _ _ _ _ _ (fun i hi => hallcall _ i hi) hQ6
  have e1 : erasureLoop [some ⟨fun _ => none⟩, some ⟨fun _ => none⟩, some ⟨fun _ => none⟩, some ⟨fun _ => none⟩, some ⟨fun _ => none⟩, some ⟨fun _ => none⟩] "v" "p" (⟨"rs", 4, 2, 1024, [1, 2, 3, 4, 5, 6], []⟩ : erasureInfo) 5 (2561 + 1) ⟨bytes, none⟩
      (newHashWriters 6) (List.replicate 6 default) 0
      = erasureLoop [some ⟨fun _ => none⟩, some ⟨fun _ => none⟩, some ⟨fun _ => none⟩, some ⟨fun _ => none⟩, some ⟨fun _ => none⟩, some ⟨fun _ => none⟩] "v" "p" (⟨"rs", 4, 2, 1024, [1, 2, 3, 4, 5, 6], []⟩ : erasureInfo) 5 2561 ⟨bytes.drop 1024, none⟩
        (appendFile [some ⟨fun _ => none⟩, some ⟨fun _ => none⟩, some ⟨fun _ => none⟩, some ⟨fun _ => none⟩, some ⟨fun _ => none⟩, some ⟨fun _ => none⟩] "v" "p" b1 [1, 2, 3, 4, 5, 6] (newHashWriters 6) (List.replicate 6 default) 5).hashWriters (appendFile [some ⟨fun _ => none⟩, some ⟨fun _ => none⟩, some ⟨fun _ => none⟩, some ⟨fun _ => none⟩, some ⟨fun _ => none⟩, some ⟨fun _ => none⟩] "v" "p" b1 [1, 2, 3, 4, 5, 6] (newHashWriters 6) (List.replicate 6 default) 5).states (0 + (bytes.take 1024).length) :=
    erasureLoop_step_full [some ⟨fun _ => none⟩, some ⟨fun _ => none⟩, some ⟨fun _ => none⟩, some ⟨fun _ => none⟩, some ⟨fun _ => none⟩, some ⟨fun _ => none⟩] "v" "p" (⟨"rs", 4, 2, 1024, [1, 2, 3, 4, 5, 6], []⟩ : erasureInfo) 5 2561 ⟨bytes, none⟩
      (newHashWriters 6) (List.replicate 6 default) 0 b1 (by norm_num)
      (show (1024 : Nat) ≤ bytes.length from by omega) hec1 hq1
  have e2 : erasureLoop [some ⟨fun _ => none⟩, some ⟨fun _ => none⟩, some ⟨fun _ => none⟩, some ⟨fun _ => none⟩, some ⟨fun _ => none⟩, some ⟨fun _ => none⟩] "v" "p" (⟨"rs", 4, 2, 1024, [1, 2, 3, 4, 5, 6], []⟩ : erasureInfo) 5 2561 ⟨bytes.drop 1024, none⟩
      (appendFile [some ⟨fun _ => none⟩, some ⟨fun _ => none⟩, some ⟨fun _ => none⟩, some ⟨fun _ => none⟩, some ⟨fun _ => none⟩, some ⟨fun _ => none⟩] "v" "p" b1 [1, 2, 3, 4, 5, 6] (newHashWriters 6) (List.replicate 6 default) 5).hashWriters (appendFile [some ⟨fun _ => none⟩, some ⟨fun _ => none⟩, some ⟨fun _ => none⟩, some ⟨fun _ => none⟩, some ⟨fun _ => none⟩, some ⟨fun _ => none⟩] "v" "p" b1 [1, 2, 3, 4, 5, 6] (newHashWriters 6) (List.replicate 6 default) 5).states (0 + (bytes.take 1024).length)
      = erasureLoop [some ⟨fun _ => none⟩, some ⟨fun _ => none⟩, some ⟨fun _ => none⟩, some ⟨fun _ => none⟩, some ⟨fun _ => none⟩, some ⟨fun _ => none⟩] "v" "p" (⟨"rs", 4, 2, 1024, [1, 2, 3, 4, 5, 6], []⟩ : erasureInfo) 5 2560 ⟨(bytes.drop 1024).drop 1024, none⟩
        (appendFile [some ⟨fun _ => none⟩, some ⟨fun _ => none⟩, some ⟨fun _ => none⟩, some ⟨fun _ => none⟩, some ⟨fun _ => none⟩, some ⟨fun _ => none⟩] "v" "p" b2 [1, 2, 3, 4, 5, 6] (appendFile [some ⟨fun _ => none⟩, some ⟨fun _ => none⟩, some ⟨fun _ => none⟩, some ⟨fun _ => none⟩, some ⟨fun _ => none⟩, some ⟨fun _ => none⟩] "v" "p" b1 [1, 2, 3, 4, 5, 6] (newHashWriters 6) (List.replicate 6 default) 5).hashWriters (appendFile [some ⟨fun _ => none⟩, some ⟨fun _ => none⟩, some ⟨fun _ => none⟩, some ⟨fun _ => none⟩, some ⟨fun _ => none⟩, some ⟨fun _ => none⟩] "v" "p" b1 [1, 2, 3, 4, 5, 6] (newHashWriters 6) (List.replicate 6 default) 5).states 5).hashWriters (appendFile [some ⟨fun _ => none⟩, some ⟨fun _ => none⟩, some ⟨fun _ => none⟩, some ⟨fun _ => none⟩, some ⟨fun _ => none⟩, some ⟨fun _ => none⟩] "v" "p" b2 [1, 2, 3, 4, 5, 6] (appendFile [some ⟨fun _ => none⟩, some ⟨fun _ => none⟩, some ⟨fun _ => none⟩, some ⟨fun _ => none⟩, some ⟨fun _ => none⟩, some ⟨fun _ => none⟩] "v" "p" b1 [1, 2, 3, 4, 5, 6] (newHashWriters 6) (List.replicate 6 default) 5).hashWriters (appendFile [some ⟨fun _ => none⟩, some ⟨fun _ => none⟩, some ⟨fun _ => none⟩, some ⟨fun _ => none⟩, some ⟨fun _ => none⟩, some ⟨fun _ => none⟩] "v" "p" b1 [1, 2, 3, 4, 5, 6] (newHashWriters 6) (List.replicate 6 default) 5).states 5).states ((0 + (bytes.take 1024).length) + ((bytes.drop 1024).take 1024).length) :=
    erasureLoop_step_full [some ⟨fun _ => none⟩, some ⟨fun _ => none⟩, some ⟨fun _ => none⟩, some ⟨fun _ => none⟩, some ⟨fun _ => none⟩, some ⟨fun _ => none⟩] "v" "p" (⟨"rs", 4, 2, 1024, [1, 2, 3, 4, 5, 6], []⟩ : erasureInfo) 5 2560 ⟨bytes.drop 1024, none⟩
      (appendFile [some ⟨fun _ => none⟩, some ⟨fun _ => none⟩, some ⟨fun _ => none⟩, some ⟨fun _ => none⟩, some ⟨fun _ => none⟩, some ⟨fun _ => none⟩] "v" "p" b1 [1, 2, 3, 4, 5, 6] (newHashWriters 6) (List.replicate 6 default) 5).hashWriters (appendFile [some ⟨fun _ => none⟩, some ⟨fun _ => none⟩, some ⟨fun _ => none⟩, some ⟨fun _ => none⟩, some ⟨fun _ => none⟩, some ⟨fun _ => none⟩] "v" "p" b1 [1, 2, 3, 4, 5, 6] (newHashWriters 6) (List.replicate 6 default) 5).states (0 + (bytes.take 1024).length) b2 (by norm_num)
      (show (1024 : Nat) ≤ (bytes.drop 1024).length from by
        rw [List.length_drop]; omega) hec2 hq2
  have e3 : erasureLoop [some ⟨fun _ => none⟩, some ⟨fun _ => none⟩, some ⟨fun _ => none⟩, some ⟨fun _ => none⟩, some ⟨fun _ => none⟩, some ⟨fun _ => none⟩] "v" "p" (⟨"rs", 4, 2, 1024, [1, 2, 3, 4, 5, 6], []⟩ : erasureInfo) 5 2560 ⟨(bytes.drop 1024).drop 1024, none⟩
      (appendFile [some ⟨fun _ => none⟩, some ⟨fun _ => none⟩, some ⟨fun _ => none⟩, some ⟨fun _ => none⟩, some ⟨fun _ => none⟩, some ⟨fun _ => none⟩] "v" "p" b2 [1, 2, 3, 4, 5, 6] (appendFile [some ⟨fun _ => none⟩, some ⟨fun _ => none⟩, some ⟨fun _ => none⟩, some ⟨fun _ => none⟩, some ⟨fun _ => none⟩, some ⟨fun _ => none⟩] "v" "p" b1 [1, 2, 3, 4, 5, 6] (newHashWriters 6) (List.replicate 6 default) 5).hashWriters (appendFile [some ⟨fun _ => none⟩, some ⟨fun _ => none⟩, some ⟨fun _ => none⟩, some ⟨fun _ => none⟩, some ⟨fun _ => none⟩, some ⟨fun _ => none⟩] "v" "p" b1 [1, 2, 3, 4, 5, 6] (newHashWriters 6) (List.replicate 6 default) 5).states 5).hashWriters (appendFile [some ⟨fun _ => none⟩, some ⟨fun _ => none⟩, some ⟨fun _ => none⟩, some ⟨fun _ => none⟩, some ⟨fun _ => none⟩, some ⟨fun _ => none⟩] "v" "p" b2 [1, 2, 3, 4, 5, 6] (appendFile [some ⟨fun _ => none⟩, some ⟨fun _ => none⟩, some ⟨fun _ => none⟩, some ⟨fun _ => none⟩, some ⟨fun _ => none⟩, some ⟨fun _ => none⟩] "v" "p" b1 [1, 2, 3, 4, 5, 6] (newHashWriters 6) (List.replicate 6 default) 5).hashWriters (appendFile [some ⟨fun _ => none⟩, some ⟨fun _ => none⟩, some ⟨fun _ => none⟩, some ⟨fun _ => none⟩, some ⟨fun _ => none⟩, some ⟨fun _ => none⟩] "v" "p" b1 [1, 2, 3, 4, 5, 6] (newHashWriters 6) (List.replicate 6 default) 5).states 5).states ((0 + (bytes.take 1024).length) + ((bytes.drop 1024).take 1024).length)
      = erasureLoop [some ⟨fun _ => none⟩, some ⟨fun _ => none⟩, some ⟨fun _ => none⟩, some ⟨fun _ => none⟩, some ⟨fun _ => none⟩, some ⟨fun _ => none⟩] "v" "p" (⟨"rs", 4, 2, 1024, [1, 2, 3, 4, 5, 6], []⟩ : erasureInfo) 5 2559 ⟨[], none⟩
        (appendFile [some ⟨fun _ => none⟩, some ⟨fun _ => none⟩, some ⟨fun _ => none⟩, some ⟨fun _ => none⟩, some ⟨fun _ => none⟩, some ⟨fun _ => none⟩] "v" "p" b3 [1, 2, 3, 4, 5, 6] (appendFile [some ⟨fun _ => none⟩, some ⟨fun _ => none⟩, some ⟨fun _ => none⟩, some ⟨fun _ => none⟩, some ⟨fun _ => none⟩, some ⟨fun _ => none⟩] "v" "p" b2 [1, 2, 3, 4, 5, 6] (appendFile [some ⟨fun _ => none⟩, some ⟨fun _ => none⟩, some ⟨fun _ => none⟩, some ⟨fun _ => none⟩, some ⟨fun _ => none⟩, some ⟨fun _ => none⟩] "v" "p" b1 [1, 2, 3, 4, 5, 6] (newHashWriters 6) (List.replicate 6 default) 5).hashWriters (appendFile [some ⟨fun _ => none⟩, some ⟨fun _ => none⟩, some ⟨fun _ => none⟩, some ⟨fun _ => none⟩, some ⟨fun _ => none⟩, some ⟨fun _ => none⟩] "v" "p" b1 [1, 2, 3, 4, 5, 6] (newHashWriters 6) (List.replicate 6 default) 5).states 5).hashWriters (appendFile [some ⟨fun _ => none⟩, some ⟨fun _ => none⟩, some ⟨fun _ => none⟩, some ⟨fun _ => none⟩, some ⟨fun _ => none⟩, some ⟨fun _ => none⟩] "v" "p" b2 [1, 2, 3, 4, 5, 6] (appendFile [some ⟨fun _ => none⟩, some ⟨fun _ => none⟩, some ⟨fun _ => none⟩, some ⟨fun _ => none⟩, some ⟨fun _ => none⟩, some ⟨fun _ => none⟩] "v" "p" b1 [1, 2, 3, 4, 5, 6] (newHashWriters 6) (List.replicate 6 default) 5).hashWriters (appendFile [some ⟨fun _ => none⟩, some ⟨fun _ => none⟩, some ⟨fun _ => none⟩, some ⟨fun _ => none⟩, some ⟨fun _ => none⟩, some ⟨fun _ => none⟩] "v" "p" b1 [1, 2, 3, 4, 5, 6] (newHashWriters 6) (List.replicate 6 default) 5).states 5).states 5).hashWriters (appendFile [some ⟨fun _ => none⟩, some ⟨fun _ => none⟩, some ⟨fun _ => none⟩, some ⟨fun _ => none⟩, some ⟨fun _ => none⟩, some ⟨fun _ => none⟩] "v" "p" b3 [1, 2, 3, 4, 5, 6] (appendFile [some ⟨fun _ => none⟩, some ⟨fun _ => none⟩, some ⟨fun _ => none⟩, some ⟨fun _ => none⟩, some ⟨fun _ => none⟩, some ⟨fun _ => none⟩] "v" "p" b2 [1, 2, 3, 4, 5, 6] (appendFile [some ⟨fun _ => none⟩, some ⟨fun _ => none⟩, some ⟨fun _ => none⟩, some ⟨fun _ => none⟩, some ⟨fun _ => none⟩, some ⟨fun _ => none⟩] "v" "p" b1 [1, 2, 3, 4, 5, 6] (newHashWriters 6) (List.replicate 6 default) 5).hashWriters (appendFile [some ⟨fun _ => none⟩, some ⟨fun _ => none⟩, some ⟨fun _ => none⟩, some ⟨fun _ => none⟩, some ⟨fun _ => none⟩, some ⟨fun _ => none⟩] "v" "p" b1 [1, 2, 3, 4, 5, 6] (newHashWriters 6) (List.replicate 6 default) 5).states 5).hashWriters (appendFile [some ⟨fun _ => none⟩, some ⟨fun _ => none⟩, some ⟨fun _ => none⟩, some ⟨fun _ => none⟩, some ⟨fun _ => none⟩, some ⟨fun _ => none⟩] "v" "p" b2 [1, 2, 3, 4, 5, 6] (appendFile [some ⟨fun _ => none⟩, some ⟨fun _ => none⟩, some ⟨fun _ => none⟩, some ⟨fun _ => none⟩, some ⟨fun _ => none⟩, some ⟨fun _ => none⟩] "v" "p" b1 [1, 2, 3, 4, 5, 6] (newHashWriters 6) (List.replicate 6 default) 5).hashWriters (appendFile [some ⟨fun _ => none⟩, some ⟨fun _ => none⟩, some ⟨fun _ => none⟩, some ⟨fun _ => none⟩, some ⟨fun _ => none⟩, some ⟨fun _ => none⟩] "v" "p" b1 [1, 2, 3, 4, 5, 6] (newHashWriters 6) (List.replicate 6 default) 5).states 5).states 5).states (((0 + (bytes.take 1024).length) + ((bytes.drop 1024).take 1024).length) + ((bytes.drop 1024).drop 1024).length) :=
    erasureLoop_step_short [some ⟨fun _ => none⟩, some ⟨fun _ => none⟩, some ⟨fun _ => none⟩, some ⟨fun _ => none⟩, some ⟨fun _ => none⟩, some ⟨fun _ => none⟩] "v" "p" (⟨"rs", 4, 2, 1024, [1, 2, 3, 4, 5, 6], []⟩ : erasureInfo) 5 2559
      ⟨(bytes.drop 1024).drop 1024, none⟩
      (appendFile [some ⟨fun _ => none⟩, some ⟨fun _ => none⟩, some ⟨fun _ => none⟩, some ⟨fun _ => none⟩, some ⟨fun _ => none⟩, some ⟨fun _ => none⟩] "v" "p" b2 [1, 2, 3, 4, 5, 6] (appendFile [some ⟨fun _ => none⟩, some ⟨fun _ => none⟩, some ⟨fun _ => none⟩, some ⟨fun _ => none⟩, some ⟨fun _ => none⟩, some ⟨fun _ => none⟩] "v" "p" b1 [1, 2, 3, 4, 5, 6] (newHashWriters 6) (List.replicate 6 default) 5).hashWriters (appendFile [some ⟨fun _ => none⟩, some ⟨fun _ => none⟩, some ⟨fun _ => none⟩, some ⟨fun _ => none⟩, some ⟨fun _ => none⟩, some ⟨fun _ => none⟩] "v" "p" b1 [1, 2, 3, 4, 5, 6] (newHashWriters 6) (List.replicate 6 default) 5).states 5).hashWriters (appendFile [some ⟨fun _ => none⟩, some ⟨fun _ => none⟩, some ⟨fun _ => none⟩, some ⟨fun _ => none⟩, some ⟨fun _ => none⟩, some ⟨fun _ => none⟩] "v" "p" b2 [1, 2, 3, 4, 5, 6] (appendFile [some ⟨fun _ => none⟩, some ⟨fun _ => none⟩, some ⟨fun _ => none⟩, some ⟨fun _ => none⟩, some ⟨fun _ => none⟩, some ⟨fun _ => none⟩] "v" "p" b1 [1, 2, 3, 4, 5, 6] (newHashWriters 6) (List.replicate 6 default) 5).hashWriters (appendFile [some ⟨fun _ => none⟩, some ⟨fun _ => none⟩, some ⟨fun _ => none⟩, some ⟨fun _ => none⟩, some ⟨fun _ => none⟩, some ⟨fun _ => none⟩] "v" "p" b1 [1, 2, 3, 4, 5, 6] (newHashWriters 6) (List.replicate 6 default) 5).states 5).states ((0 + (bytes.take 1024).length) + ((bytes.drop 1024).take 1024).length) b3
      (show (0 : Nat) < ((bytes.drop 1024).drop 1024).length from by
        rw [List.length_drop, List.length_drop]; omega)
      (show ((bytes.drop 1024).drop 1024).length < 1024 from by
        rw [List.length_drop, List.length_drop]; omega)
      rfl hec3 hq3
  have e4 : erasureLoop [some ⟨fun _ => none⟩, some ⟨fun _ => none⟩, some ⟨fun _ => none⟩, some ⟨fun _ => none⟩, some ⟨fun _ => none⟩, some ⟨fun _ => none⟩] "v" "p" (⟨"rs", 4, 2, 1024, [1, 2, 3, 4, 5, 6], []⟩ : erasureInfo) 5 2559 ⟨[], none⟩
      (appendFile [some ⟨fun _ => none⟩, some ⟨fun _ => none⟩, some ⟨fun _ => none⟩, some ⟨fun _ => none⟩, some ⟨fun _ => none⟩, some ⟨fun _ => none⟩] "v" "p" b3 [1, 2, 3, 4, 5, 6] (appendFile [some ⟨fun _ => none⟩, some ⟨fun _ => none⟩, some ⟨fun _ => none⟩, some ⟨fun _ => none⟩, some ⟨fun _ => none⟩, some ⟨fun _ => none⟩] "v" "p" b2 [1, 2, 3, 4, 5, 6] (appendFile [some ⟨fun _ => none⟩, some ⟨fun _ => none⟩, some ⟨fun _ => none⟩, some ⟨fun _ => none⟩, some ⟨fun _ => none⟩, some ⟨fun _ => none⟩] "v" "p" b1 [1, 2, 3, 4, 5, 6] (newHashWriters 6) (List.replicate 6 default) 5).hashWriters (appendFile [some ⟨fun _ => none⟩, some ⟨fun _ => none⟩, some ⟨fun _ => none⟩, some ⟨fun _ => none⟩, some ⟨fun _ => none⟩, some ⟨fun _ => none⟩] "v" "p" b1 [1, 2, 3, 4, 5, 6] (newHashWriters 6) (List.replicate 6 default) 5).states 5).hashWriters (appendFile [some ⟨fun _ => none⟩, some ⟨fun _ => none⟩, some ⟨fun _ => none⟩, some ⟨fun _ => none⟩, some ⟨fun _ => none⟩, some ⟨fun _ => none⟩] "v" "p" b2 [1, 2, 3, 4, 5, 6] (appendFile [some ⟨fun _ => none⟩, some ⟨fun _ => none⟩, some ⟨fun _ => none⟩, some ⟨fun _ => none⟩, some ⟨fun _ => none⟩, some ⟨fun _ => none⟩] "v" "p" b1 [1, 2, 3, 4, 5, 6] (newHashWriters 6) (List.replicate 6 default) 5).hashWriters (appendFile [some ⟨fun _ => none⟩, some ⟨fun _ => none⟩, some ⟨fun _ => none⟩, some ⟨fun _ => none⟩, some ⟨fun _ => none⟩, some ⟨fun _ => none⟩] "v" "p" b1 [1, 2, 3, 4, 5, 6] (newHashWriters 6) (List.replicate 6 default) 5).states 5).states 5).hashWriters (appendFile [some ⟨fun _ => none⟩, some ⟨fun _ => none⟩, some ⟨fun _ => none⟩, some ⟨fun _ => none⟩, some ⟨fun _ => none⟩, some ⟨fun _ => none⟩] "v" "p" b3 [1, 2, 3, 4, 5, 6] (appendFile [some ⟨fun _ => none⟩, some ⟨fun _ => none⟩, some ⟨fun _ => none⟩, some ⟨fun _ => none⟩, some ⟨fun _ => none⟩, some ⟨fun _ => none⟩] "v" "p" b2 [1, 2, 3, 4, 5, 6] (appendFile [some ⟨fun _ => none⟩, some ⟨fun _ => none⟩, some ⟨fun _ => none⟩, some ⟨fun _ => none⟩, some ⟨fun _ => none⟩, some ⟨fun _ => none⟩] "v" "p" b1 [1, 2, 3, 4, 5, 6] (newHashWriters 6) (List.replicate 6 default) 5).hashWriters (appendFile [some ⟨fun _ => none⟩, some ⟨fun _ => none⟩, some ⟨fun _ => none⟩, some ⟨fun _ => none⟩, some ⟨fun _ => none⟩, some ⟨fun _ => none⟩] "v" "p" b1 [1, 2, 3, 4, 5, 6] (newHashWriters 6) (List.replicate 6 default) 5).states 5).hashWriters (appendFile [some ⟨fun _ => none⟩, some ⟨fun _ => none⟩, some ⟨fun _ => none⟩, some ⟨fun _ => none⟩, some ⟨fun _ => none⟩, some ⟨fun _ => none⟩] "v" "p" b2 [1, 2, 3, 4, 5, 6] (appendFile [some ⟨fun _ => none⟩, some ⟨fun _ => none⟩, some ⟨fun _ => none⟩, some ⟨fun _ => none⟩, some ⟨fun _ => none⟩, some ⟨fun _ => none⟩] "v" "p" b1 [1, 2, 3, 4, 5, 6] (newHashWriters 6) (List.replicate 6 default) 5).hashWriters (appendFile [some ⟨fun _ => none⟩, some ⟨fun _ => none⟩, some ⟨fun _ => none⟩, some ⟨fun _ => none⟩, some ⟨fun _ => none⟩, some ⟨fun _ => none⟩] "v" "p" b1 [1, 2, 3, 4, 5, 6] (newHashWriters 6) (List.replicate 6 default) 5).states 5).states 5).states (((0 + (bytes.take 1024).length) + ((bytes.drop 1024).take 1024).length) + ((bytes.drop 1024).drop 1024).length)
      = ⟨none, (appendFile [some ⟨fun _ => none⟩, some ⟨fun _ => none⟩, some ⟨fun _ => none⟩, some ⟨fun _ => none⟩, some ⟨fun _ => none⟩, some ⟨fun _ => none⟩] "v" "p" b3 [1, 2, 3, 4, 5, 6] (appendFile [some ⟨fun _ => none⟩, some ⟨fun _ => none⟩, some ⟨fun _ => none⟩, some ⟨fun _ => none⟩, some ⟨fun _ => none⟩, some ⟨fun _ => none⟩] "v" "p" b2 [1, 2, 3, 4, 5, 6] (appendFile [some ⟨fun _ => none⟩, some ⟨fun _ => none⟩, some ⟨fun _ => none⟩, some ⟨fun _ => none⟩, some ⟨fun _ => none⟩, some ⟨fun _ => none⟩] "v" "p" b1 [1, 2, 3, 4, 5, 6] (newHashWriters 6) (List.replicate 6 default) 5).hashWriters (appendFile [some ⟨fun _ => none⟩, some ⟨fun _ => none⟩, some ⟨fun _ => none⟩, some ⟨fun _ => none⟩, some ⟨fun _ => none⟩, some ⟨fun _ => none⟩] "v" "p" b1 [1, 2, 3, 4, 5, 6] (newHashWriters 6) (List.replicate 6 default) 5).states 5).hashWriters (appendFile [some ⟨fun _ => none⟩, some ⟨fun _ => none⟩, some ⟨fun _ => none⟩, some ⟨fun _ => none⟩, some ⟨fun _ => none⟩, some ⟨fun _ => none⟩] "v" "p" b2 [1, 2, 3, 4, 5, 6] (appendFile [some ⟨fun _ => none⟩, some ⟨fun _ => none⟩, some ⟨fun _ => none⟩, some ⟨fun _ => none⟩, some ⟨fun _ => none⟩, some ⟨fun _ => none⟩] "v" "p" b1 [1, 2, 3, 4, 5, 6] (newHashWriters 6) (List.replicate 6 default) 5).hashWriters (appendFile [some ⟨fun _ => none⟩, some ⟨fun _ => none⟩, some ⟨fun _ => none⟩, some ⟨fun _ => none⟩, some ⟨fun _ => none⟩, some ⟨fun _ => none⟩] "v" "p" b1 [1, 2, 3, 4, 5, 6] (newHashWriters 6) (List.replicate 6 default) 5).states 5).states 5).hashWriters, (appendFile [some ⟨fun _ => none⟩, some ⟨fun _ => none⟩, some ⟨fun _ => none⟩, some ⟨fun _ => none⟩, some ⟨fun _ => none⟩, some ⟨fun _ => none⟩] "v" "p" b3 [1, 2, 3, 4, 5, 6] (appendFile [some ⟨fun _ => none⟩, some ⟨fun _ => none⟩, some ⟨fun _ => none⟩, some ⟨fun _ => none⟩, some ⟨fun _ => none⟩, some ⟨fun _ => none⟩] "v" "p" b2 [1, 2, 3, 4, 5, 6] (appendFile [some ⟨fun _ => none⟩, some ⟨fun _ => none⟩, some ⟨fun _ => none⟩, some ⟨fun _ => none⟩, some ⟨fun _ => none⟩, some ⟨fun _ => none⟩] "v" "p" b1 [1, 2, 3, 4, 5, 6] (newHashWriters 6) (List.replicate 6 default) 5).hashWriters (appendFile [some ⟨fun _ => none⟩, some ⟨fun _ => none⟩, some ⟨fun _ => none⟩, some ⟨fun _ => none⟩, some ⟨fun _ => none⟩, some ⟨fun _ => none⟩] "v" "p" b1 [1, 2, 3, 4, 5, 6] (newHashWriters 6) (List.replicate 6 default) 5).states 5).hashWriters (appendFile [some ⟨fun _ => none⟩, some ⟨fun _ => none⟩, some ⟨fun _ => none⟩, some ⟨fun _ => none⟩, some ⟨fun _ => none⟩, some ⟨fun _ => none⟩] "v" "p" b2 [1, 2, 3, 4, 5, 6] (appendFile [some ⟨fun _ => none⟩, some ⟨fun _ => none⟩, some ⟨fun _ => none⟩, some ⟨fun _ => none⟩, some ⟨fun _ => none⟩, some ⟨fun _ => none⟩] "v" "p" b1 [1, 2, 3, 4, 5, 6] (newHashWriters 6) (List.replicate 6 default) 5).hashWriters (appendFile [some ⟨fun _ => none⟩, some ⟨fun _ => none⟩, some ⟨fun _ => none⟩, some ⟨fun _ => none⟩, some ⟨fun _ => none⟩, some ⟨fun _ => none⟩] "v" "p" b1 [1, 2, 3, 4, 5, 6] (newHashWriters 6) (List.replicate 6 default) 5).states 5).states 5).states, (((0 + (bytes.take 1024).length) + ((bytes.drop 1024).take 1024).length) + ((bytes.drop 1024).drop 1024).length)⟩ :=
    erasureLoop_step_eof [some ⟨fun _ => none⟩, some ⟨fun _ => none⟩, some ⟨fun _ => none⟩, some ⟨fun _ => none⟩, some ⟨fun _ => none⟩, some ⟨fun _ => none⟩] "v" "p" (⟨"rs", 4, 2, 1024, [1, 2, 3, 4, 5, 6], []⟩ : erasureInfo) 5 2558 ⟨[], none⟩
      (appendFile [some ⟨fun _ => none⟩, some ⟨fun _ => none⟩, some ⟨fun _ => none⟩, some ⟨fun _ => none⟩, some ⟨fun _ => none⟩, some ⟨fun _ => none⟩] "v" "p" b3 [1, 2, 3, 4, 5, 6] (appendFile [some ⟨fun _ => none⟩, some ⟨fun _ => none⟩, some ⟨fun _ => none⟩, some ⟨fun _ => none⟩, some ⟨fun _ => none⟩, some ⟨fun _ => none⟩] "v" "p" b2 [1, 2, 3, 4, 5, 6] (appendFile [some ⟨fun _ => none⟩, some ⟨fun _ => none⟩, some ⟨fun _ => none⟩, some ⟨fun _ => none⟩, some ⟨fun _ => none⟩, some ⟨fun _ => none⟩] "v" "p" b1 [1, 2, 3, 4, 5, 6] (newHashWriters 6) (List.replicate 6 default) 5).hashWriters (appendFile [some ⟨fun _ => none⟩, some ⟨fun _ => none⟩, some ⟨fun _ => none⟩, some ⟨fun _ => none⟩, some ⟨fun _ => none⟩, some ⟨fun _ => none⟩] "v" "p" b1 [1, 2, 3, 4, 5, 6] (newHashWriters 6) (List.replicate 6 default) 5).states 5).hashWriters (appendFile [some ⟨fun _ => none⟩, some ⟨fun _ => none⟩, some ⟨fun _ => none⟩, some ⟨fun _ => none⟩, some ⟨fun _ => none⟩, some ⟨fun _ => none⟩] "v" "p" b2 [1, 2, 3, 4, 5, 6] (appendFile [some ⟨fun _ => none⟩, some ⟨fun _ => none⟩, some ⟨fun _ => none⟩, some ⟨fun _ => none⟩, some ⟨fun _ => none⟩, some ⟨fun _ => none⟩] "v" "p" b1 [1, 2, 3, 4, 5, 6] (newHashWriters 6) (List.replicate 6 default) 5).hashWriters (appendFile [some ⟨fun _ => none⟩, some ⟨fun _ => none⟩, some ⟨fun _ => none⟩, some ⟨fun _ => none⟩, some ⟨fun _ => none⟩, some ⟨fun _ => none⟩] "v" "p" b1 [1, 2, 3, 4, 5, 6] (newHashWriters 6) (List.replicate 6 default) 5).states 5).states 5).hashWriters (appendFile [some ⟨fun _ => none⟩, some ⟨fun _ => none⟩, some ⟨fun _ => none⟩, some ⟨fun _ => none⟩, some ⟨fun _ => none⟩, some ⟨fun _ => none⟩] "v" "p" b3 [1, 2, 3, 4, 5, 6] (appendFile [some ⟨fun _ => none⟩, some ⟨fun _ => none⟩, some ⟨fun _ => none⟩, some ⟨fun _ => none⟩, some ⟨fun _ => none⟩, some ⟨fun _ => none⟩] "v" "p" b2 [1, 2, 3, 4, 5, 6] (appendFile [some ⟨fun _ => none⟩, some ⟨fun _ => none⟩, some ⟨fun _ => none⟩, some ⟨fun _ => none⟩, some ⟨fun _ => none⟩, some ⟨fun _ => none⟩] "v" "p" b1 [1, 2, 3, 4, 5, 6] (newHashWriters 6) (List.replicate 6 default) 5).hashWriters (appendFile [some ⟨fun _ => none⟩, some ⟨fun _ => none⟩, some ⟨fun _ => none⟩, some ⟨fun _ => none⟩, some ⟨fun _ => none⟩, some ⟨fun _ => none⟩] "v" "p" b1 [1, 2, 3, 4, 5, 6] (newHashWriters 6) (List.replicate 6 default) 5).states 5).hashWriters (appendFile [some ⟨fun _ => none⟩, some ⟨fun _ => none⟩, some ⟨fun _ => none⟩, some ⟨fun _ => none⟩, some ⟨fun _ => none⟩, some ⟨fun _ => none⟩] "v" "p" b2 [1, 2, 3, 4, 5, 6] (appendFile [some ⟨fun _ => none⟩, some ⟨fun _ => none⟩, some ⟨fun _ => none⟩, some ⟨fun _ => none⟩, some ⟨fun _ => none⟩, some ⟨fun _ => none⟩] "v" "p" b1 [1, 2, 3, 4, 5, 6] (newHashWriters 6) (List.replicate 6 default) 5).hashWriters (appendFile [some ⟨fun _ => none⟩, some ⟨fun _ => none⟩, some ⟨fun _ => none⟩, some ⟨fun _ => none⟩, some ⟨fun _ => none⟩, some ⟨fun _ => none⟩] "v" "p" b1 [1, 2, 3, 4, 5, 6] (newHashWriters 6) (List.replicate 6 default) 5).states 5).states 5).states (((0 + (bytes.take 1024).length) + ((bytes.drop 1024).take 1024).length) + ((bytes.drop 1024).drop 1024).length) rfl rfl (by norm_num)
      (show (((0 + (bytes.take 1024).length) + ((bytes.drop 1024).take 1024).length) + ((bytes.drop 1024).drop 1024).length) ≠ 0 from by
        rw [List.length_take, List.length_drop, List.length_drop, List.length_take,
          List.length_drop]
        omega)
  have hfinal : erasureLoop [some ⟨fun _ => none⟩, some ⟨fun _ => none⟩, some ⟨fun _ => none⟩, some ⟨fun _ => none⟩, some ⟨fun _ => none⟩, some ⟨fun _ => none⟩] "v" "p" (pickValidErasureInfo (List.replicate 6 (⟨"rs", 4, 2, 1024, [1, 2, 3, 4, 5, 6], []⟩ : erasureInfo))) 5
      ((⟨bytes, none⟩ : ByteStream).bytes.length + 2) ⟨bytes, none⟩
      (newHashWriters ([some ⟨fun _ => none⟩, some ⟨fun _ => none⟩, some ⟨fun _ => none⟩, some ⟨fun _ => none⟩, some ⟨fun _ => none⟩, some ⟨fun _ => none⟩] : List (Option StorageAPI)).length)
      (List.replicate ([some ⟨fun _ => none⟩, some ⟨fun _ => none⟩, some ⟨fun _ => none⟩, some ⟨fun _ => none⟩, some ⟨fun _ => none⟩, some ⟨fun _ => none⟩] : List (Option StorageAPI)).length default) 0
      = ⟨none, (appendFile [some ⟨fun _ => none⟩, some ⟨fun _ => none⟩, some ⟨fun _ => none⟩, some ⟨fun _ => none⟩, some ⟨fun _ => none⟩, some ⟨fun _ => none⟩] "v" "p" b3 [1, 2, 3, 4, 5, 6] (appendFile [some ⟨fun _ => none⟩, some ⟨fun _ => none⟩, some ⟨fun _ => none⟩, some ⟨fun _ => none⟩, some ⟨fun _ => none⟩, some ⟨fun _ => none⟩] "v" "p" b2 [1, 2, 3, 4, 5, 6] (appendFile [some ⟨fun _ => none⟩, some ⟨fun _ => none⟩, some ⟨fun _ => none⟩, some ⟨fun _ => none⟩, some ⟨fun _ => none⟩, some ⟨fun _ => none⟩] "v" "p" b1 [1, 2, 3, 4, 5, 6] (newHashWriters 6) (List.replicate 6 default) 5).hashWriters (appendFile [some ⟨fun _ => none⟩, some ⟨fun _ => none⟩, some ⟨fun _ => none⟩, some ⟨fun _ => none⟩, some ⟨fun _ => none⟩, some ⟨fun _ => none⟩] "v" "p" b1 [1, 2, 3, 4, 5, 6] (newHashWriters 6) (List.replicate 6 default) 5).states 5).hashWriters (appendFile [some ⟨fun _ => none⟩, some ⟨fun _ => none⟩, some ⟨fun _ => none⟩, some ⟨fun _ => none⟩, some ⟨fun _ => none⟩, some ⟨fun _ => none⟩] "v" "p" b2 [1, 2, 3, 4, 5, 6] (appendFile [some ⟨fun _ => none⟩, some ⟨fun _ => none⟩, some ⟨fun _ => none⟩, some ⟨fun _ => none⟩, some ⟨fun _ => none⟩, some ⟨fun _ => none⟩] "v" "p" b1 [1, 2, 3, 4, 5, 6] (newHashWriters 6) (List.replicate 6 default) 5).hashWriters (appendFile [some ⟨fun _ => none⟩, some ⟨fun _ => none⟩, some ⟨fun _ => none⟩, some ⟨fun _ => none⟩, some ⟨fun _ => none⟩, some ⟨fun _ => none⟩] "v" "p" b1 [1, 2, 3, 4, 5, 6] (newHashWriters 6) (List.replicate 6 default) 5).states 5).states 5).hashWriters, (appendFile [some ⟨fun _ => none⟩, some ⟨fun _ => none⟩, some ⟨fun _ => none⟩, some ⟨fun _ => none⟩, some ⟨fun _ => none⟩, some ⟨fun _ => none⟩] "v" "p" b3 [1, 2, 3, 4, 5, 6] (appendFile [some ⟨fun _ => none⟩, some ⟨fun _ => none⟩, some ⟨fun _ => none⟩, some ⟨fun _ => none⟩, some ⟨fun _ => none⟩, some ⟨fun _ => none⟩] "v" "p" b2 [1, 2, 3, 4, 5, 6] (appendFile [some ⟨fun _ => none⟩, some ⟨fun _ => none⟩, some ⟨fun _ => none⟩, some ⟨fun _ => none⟩, some ⟨fun _ => none⟩, some ⟨fun _ => none⟩] "v" "p" b1 [1, 2, 3, 4, 5, 6] (newHashWriters 6) (List.replicate 6 default) 5).hashWriters (appendFile [some ⟨fun _ => none⟩, some ⟨fun _ => none⟩, some ⟨fun _ => none⟩, some ⟨fun _ => none⟩, some ⟨fun _ => none⟩, some ⟨fun _ => none⟩] "v" "p" b1 [1, 2, 3, 4, 5, 6] (newHashWriters 6) (List.replicate 6 default) 5).states 5).hashWriters (appendFile [some ⟨fun _ => none⟩, some ⟨fun _ => none⟩, some ⟨fun _ => none⟩, some ⟨fun _ => none⟩, some ⟨fun _ => none⟩, some ⟨fun _ => none⟩] "v" "p" b2 [1, 2, 3, 4, 5, 6] (appendFile [some ⟨fun _ => none⟩, some ⟨fun _ => none⟩, some ⟨fun _ => none⟩, some ⟨fun _ => none⟩, some ⟨fun _ => none⟩, some ⟨fun _ => none⟩] "v" "p" b1 [1, 2, 3, 4, 5, 6] (newHashWriters 6) (List.replicate 6 default) 5).hashWriters (appendFile [some ⟨fun _ => none⟩, some ⟨fun _ => none⟩, some ⟨fun _ => none⟩, some ⟨fun _ => none⟩, some ⟨fun _ => none⟩, some ⟨fun _ => none⟩] "v" "p" b1 [1, 2, 3, 4, 5, 6] (newHashWriters 6) (List.replicate 6 default) 5).states 5).states 5).states, (((0 + (bytes.take 1024).length) + ((bytes.drop 1024).take 1024).length) + ((bytes.drop 1024).drop 1024).length)⟩ := by
    rw [hpick, show (⟨bytes, none⟩ : ByteStream).bytes.length + 2 = 2561 + 1 from by
      show bytes.length + 2 = 2561 + 1
      omega]
    exact e1.trans (e2.trans (e3.trans e4))
  have hsz2560 : (((0 + (bytes.take 1024).length) + ((bytes.drop 1024).take 1024).length) + ((bytes.drop 1024).drop 1024).length) = 2560 := by
    rw [List.length_take, List.length_drop, List.length_drop, List.length_take,
      List.length_drop]
    omega
  have hA1len : (appendFile [some ⟨fun _ => none⟩, some ⟨fun _ => none⟩, some ⟨fun _ => none⟩, some ⟨fun _ => none⟩, some ⟨fun _ => none⟩, some ⟨fun _ => none⟩] "v" "p" b1 [1, 2, 3, 4, 5, 6] (newHashWriters 6) (List.replicate 6 default) 5).states.length = 6 := by
    rw [appendFile_states, List.length_map, List.length_range]
    simp
  have hA2len : (appendFile [some ⟨fun _ => none⟩, some ⟨fun _ => none⟩, some ⟨fun _ => none⟩, some ⟨fun _ => none⟩, some ⟨fun _ => none⟩, some ⟨fun _ => none⟩] "v" "p" b2 [1, 2, 3, 4, 5, 6] (appendFile [some ⟨fun _ => none⟩, some ⟨fun _ => none⟩, some ⟨fun _ => none⟩, some ⟨fun _ => none⟩, some ⟨fun _ => none⟩, some ⟨fun _ => none⟩] "v" "p" b1 [1, 2, 3, 4, 5, 6] (newHashWriters 6) (List.replicate 6 default) 5).hashWriters (appendFile [some ⟨fun _ => none⟩, some ⟨fun _ => none⟩, some ⟨fun _ => none⟩, some ⟨fun _ => none⟩, some ⟨fun _ => none⟩, some ⟨fun _ => none⟩] "v" "p" b1 [1, 2, 3, 4, 5, 6] (newHashWriters 6) (List.replicate 6 default) 5).states 5).states.length = 6 := by
    rw [appendFile_states, List.length_map, List.length_range]
    exact hA1len
  have hloopnone : (erasureLoop [some ⟨fun _ => none⟩, some ⟨fun _ => none⟩, some ⟨fun _ => none⟩, some ⟨fun _ => none⟩, some ⟨fun _ => none⟩, some ⟨fun _ => none⟩] "v" "p" (pickValidErasureInfo (List.replicate 6 (⟨"rs", 4, 2, 1024, [1, 2, 3, 4, 5, 6], []⟩ : erasureInfo))) 5
      ((⟨bytes, none⟩ : ByteStream).bytes.length + 2) ⟨bytes, none⟩
      (newHashWriters ([some ⟨fun _ => none⟩, some ⟨fun _ => none⟩, some ⟨fun _ => none⟩, some ⟨fun _ => none⟩, some ⟨fun _ => none⟩, some ⟨fun _ => none⟩] : List (Option StorageAPI)).length)
      (List.replicate ([some ⟨fun _ => none⟩, some ⟨fun _ => none⟩, some ⟨fun _ => none⟩, some ⟨fun _ => none⟩, some ⟨fun _ => none⟩, some ⟨fun _ => none⟩] : List (Option StorageAPI)).length default) 0).err = none := by
    rw [hfinal]
  refine ⟨?_, ?_, ?_⟩
  · rw [erasureCreateFile_err_eq]
    exact hloopnone
  · rw [erasureCreateFile_size_eq _ _ _ _ _ _ _ _ hloopnone, hfinal]
    exact hsz2560
  · intro i hi
    have hds : (erasureCreateFile [some ⟨fun _ => none⟩, some ⟨fun _ => none⟩, some ⟨fun _ => none⟩, some ⟨fun _ => none⟩, some ⟨fun _ => none⟩, some ⟨fun _ => none⟩] "v" "p" "n" ⟨bytes, none⟩ (List.replicate 6 (⟨"rs", 4, 2, 1024, [1, 2, 3, 4, 5, 6], []⟩ : erasureInfo)) 5 digest).diskStates = (appendFile [some ⟨fun _ => none⟩, some ⟨fun _ => none⟩, some ⟨fun _ => none⟩, some ⟨fun _ => none⟩, some ⟨fun _ => none⟩, some ⟨fun _ => none⟩] "v" "p" b3 [1, 2, 3, 4, 5, 6] (appendFile [some ⟨fun _ => none⟩, some ⟨fun _ => none⟩, some ⟨fun _ => none⟩, some ⟨fun _ => none⟩, some ⟨fun _ => none⟩, some ⟨fun _ => none⟩] "v" "p" b2 [1, 2, 3, 4, 5, 6] (appendFile [some ⟨fun _ => none⟩, some ⟨fun _ => none⟩, some ⟨fun _ => none⟩, some ⟨fun _ => none⟩, some ⟨fun _ => none⟩, some ⟨fun _ => none⟩] "v" "p" b1 [1, 2, 3, 4, 5, 6] (newHashWriters 6) (List.replicate 6 default) 5).hashWriters (appendFile [some ⟨fun _ => none⟩, some ⟨fun _ => none⟩, some ⟨fun _ => none⟩, some ⟨fun _ => none⟩, some ⟨fun _ => none⟩, some ⟨fun _ => none⟩] "v" "p" b1 [1, 2, 3, 4, 5, 6] (newHashWriters 6) (List.replicate 6 default) 5).states 5).hashWriters (appendFile [some ⟨fun _ => none⟩, some ⟨fun _ => none⟩, some ⟨fun _ => none⟩, some ⟨fun _ => none⟩, some ⟨fun _ => none⟩, some ⟨fun _ => none⟩] "v" "p" b2 [1, 2, 3, 4, 5, 6] (appendFile [some ⟨fun _ => none⟩, some ⟨fun _ => none⟩, some ⟨fun _ => none⟩, some ⟨fun _ => none⟩, some ⟨fun _ => none⟩, some ⟨fun _ => none⟩] "v" "p" b1 [1, 2, 3, 4, 5, 6] (newHashWriters 6) (List.replicate 6 default) 5).hashWriters (appendFile [some ⟨fun _ => none⟩, some ⟨fun _ => none⟩, some ⟨fun _ => none⟩, some ⟨fun _ => none⟩, some ⟨fun _ => none⟩, some ⟨fun _ => none⟩] "v" "p" b1 [1, 2, 3, 4, 5, 6] (newHashWriters 6) (List.replicate 6 default) 5).states 5).states 5).states := by
      rw [erasureCreateFile_diskStates]
      rw [hfinal]
    rw [hds]
    have hdisk : ([some ⟨fun _ => none⟩, some ⟨fun _ => none⟩, some ⟨fun _ => none⟩, some ⟨fun _ => none⟩, some ⟨fun _ => none⟩, some ⟨fun _ => none⟩] : List (Option StorageAPI)).getD i none
        = some ⟨fun _ => none⟩ := by
      interval_cases i <;> rfl
    rw [appendFile_states_getD_present [some ⟨fun _ => none⟩, some ⟨fun _ => none⟩, some ⟨fun _ => none⟩, some ⟨fun _ => none⟩, some ⟨fun _ => none⟩, some ⟨fun _ => none⟩] "v" "p" b3 [1, 2, 3, 4, 5, 6]
      (appendFile [some ⟨fun _ => none⟩, some ⟨fun _ => none⟩, some ⟨fun _ => none⟩, some ⟨fun _ => none⟩, some ⟨fun _ => none⟩, some ⟨fun _ => none⟩] "v" "p" b2 [1, 2, 3, 4, 5, 6] (appendFile [some ⟨fun _ => none⟩, some ⟨fun _ => none⟩, some ⟨fun _ => none⟩, some ⟨fun _ => none⟩, some ⟨fun _ => none⟩, some ⟨fun _ => none⟩] "v" "p" b1 [1, 2, 3, 4, 5, 6] (newHashWriters 6) (List.replicate 6 default) 5).hashWriters (appendFile [some ⟨fun _ => none⟩, some ⟨fun _ => none⟩, some ⟨fun _ => none⟩, some ⟨fun _ => none⟩, some ⟨fun _ => none⟩, some ⟨fun _ => none⟩] "v" "p" b1 [1, 2, 3, 4, 5, 6] (newHashWriters 6) (List.replicate 6 default) 5).states 5).hashWriters (appendFile [some ⟨fun _ => none⟩, some ⟨fun _ => none⟩, some ⟨fun _ => none⟩, some ⟨fun _ => none⟩, some ⟨fun _ => none⟩, some ⟨fun _ => none⟩] "v" "p" b2 [1, 2, 3, 4, 5, 6] (appendFile [some ⟨fun _ => none⟩, some ⟨fun _ => none⟩, some ⟨fun _ => none⟩, some ⟨fun _ => none⟩, some ⟨fun _ => none⟩, some ⟨fun _ => none⟩] "v" "p" b1 [1, 2, 3, 4, 5, 6] (newHashWriters 6) (List.replicate 6 default) 5).hashWriters (appendFile [some ⟨fun _ => none⟩, some ⟨fun _ => none⟩, some ⟨fun _ => none⟩, some ⟨fun _ => none⟩, some ⟨fun _ => none⟩, some ⟨fun _ => none⟩] "v" "p" b1 [1, 2, 3, 4, 5, 6] (newHashWriters 6) (List.replicate 6 default) 5).states 5).states 5 i ⟨fun _ => none⟩ hi hA2len hdisk]
    rw [appendFile_states_getD_present [some ⟨fun _ => none⟩, some ⟨fun _ => none⟩, some ⟨fun _ => none⟩, some ⟨fun _ => none⟩, some ⟨fun _ => none⟩, some ⟨fun _ => none⟩] "v" "p" b2 [1, 2, 3, 4, 5, 6]
      (appendFile [some ⟨fun _ => none⟩, some ⟨fun _ => none⟩, some ⟨fun _ => none⟩, some ⟨fun _ => none⟩, some ⟨fun _ => none⟩, some ⟨fun _ => none⟩] "v" "p" b1 [1, 2, 3, 4, 5, 6] (newHashWriters 6) (List.replicate 6 default) 5).hashWriters (appendFile [some ⟨fun _ => none⟩, some ⟨fun _ => none⟩, some ⟨fun _ => none⟩, some ⟨fun _ => none⟩, some ⟨fun _ => none⟩, some ⟨fun _ => none⟩] "v" "p" b1 [1, 2, 3, 4, 5, 6] (newHashWriters 6) (List.replicate 6 default) 5).states 5 i ⟨fun _ => none⟩ hi hA1len hdisk]
    rw [appendFile_states_getD_present [some ⟨fun _ => none⟩, some ⟨fun _ => none⟩, some ⟨fun _ => none⟩, some ⟨fun _ => none⟩, some ⟨fun _ => none⟩, some ⟨fun _ => none⟩] "v" "p" b1 [1, 2, 3, 4, 5, 6]
      (newHashWriters 6) (List.replicate 6 default) 5 i ⟨fun _ => none⟩ hi
      (by simp) hdisk]
    rw [getD_replicate _ _ _ _ (show i < 6 from hi)]
    have hk : (([1, 2, 3, 4, 5, 6] : List Nat).getD i 0 - 1) < 6 := by
      interval_cases i <;> norm_num
    have hsh1 : (b1.getD (([1, 2, 3, 4, 5, 6] : List Nat).getD i 0 - 1) []).length = 256 :=
      hball1n _ (getD_mem _ _ _ (by rw [hblen1]; omega))
    have hsh2 : (b2.getD (([1, 2, 3, 4, 5, 6] : List Nat).getD i 0 - 1) []).length = 256 :=
      hball2n _ (getD_mem _ _ _ (by rw [hblen2]; omega))
    have hsh3 : (b3.getD (([1, 2, 3, 4, 5, 6] : List Nat).getD i 0 - 1) []).length = 128 :=
      hball3n _ (getD_mem _ _ _ (by rw [hblen3]; omega))
    simp only [default_diskState_calls, List.nil_append, List.map_append,
      List.map_cons, List.map_nil, List.cons_append]
    rw [hsh1, hsh2, hsh3]

/-- Witness for C8: the all-zero 2560-byte stream. -/
theorem claim8_witness :
    (List.replicate 2560 0).length = 2560 ∧
    ((erasureCreateFile [some ⟨fun _ => none⟩, some ⟨fun _ => none⟩, some ⟨fun _ => none⟩, some ⟨fun _ => none⟩, some ⟨fun _ => none⟩, some ⟨fun _ => none⟩] "v" "p" "n" ⟨List.replicate 2560 0, none⟩ (List.replicate 6 (⟨"rs", 4, 2, 1024, [1, 2, 3, 4, 5, 6], []⟩ : erasureInfo)) 5 (fun _ => "")).err = none ∧
     (erasureCreateFile [some ⟨fun _ => none⟩, some ⟨fun _ => none⟩, some ⟨fun _ => none⟩, some ⟨fun _ => none⟩, some ⟨fun _ => none⟩, some ⟨fun _ => none⟩] "v" "p" "n" ⟨List.replicate 2560 0, none⟩ (List.replicate 6 (⟨"rs", 4, 2, 1024, [1, 2, 3, 4, 5, 6], []⟩ : erasureInfo)) 5 (fun _ => "")).size = 2560 ∧
     ∀ i < 6, (((erasureCreateFile [some ⟨fun _ => none⟩, some ⟨fun _ => none⟩, some ⟨fun _ => none⟩, some ⟨fun _ => none⟩, some ⟨fun _ => none⟩, some ⟨fun _ => none⟩] "v" "p" "n" ⟨List.replicate 2560 0, none⟩ (List.replicate 6 (⟨"rs", 4, 2, 1024, [1, 2, 3, 4, 5, 6], []⟩ : erasureInfo)) 5 (fun _ => "")).diskStates.getD i default).calls).map List.length
       = [256, 256, 128]) :=
  ⟨by rw [List.length_replicate],
    claim8_scenario_b (List.replicate 2560 0) (fun _ => "")
      (by rw [List.length_replicate])⟩

end MinioXL
